import Mathlib

/-!
Verification of the ldesign-docs documentation generator against its
specification.  The TypeScript sources under `src/` are shallowly embedded:
pure string manipulation is reproduced character by character (JavaScript
regular expressions become explicit scanners with the same leftmost-match
semantics), stateful loops become folds, and the file system becomes an
explicit association list.
-/

namespace LDocs

/-! ## JavaScript string primitives -/

/-- Characters matched by the JavaScript regex class `\s` (also the set
trimmed by `String.prototype.trim`). -/
def jsWs (c : Char) : Bool :=
  c == ' ' || c == '\t' || c == '\n' || c.toNat == 13 || c.toNat == 11 ||
  c.toNat == 12 || c.toNat == 0xa0 || c.toNat == 0x1680 ||
  (0x2000 ≤ c.toNat && c.toNat ≤ 0x200a) || c.toNat == 0x2028 ||
  c.toNat == 0x2029 || c.toNat == 0x202f || c.toNat == 0x205f ||
  c.toNat == 0x3000 || c.toNat == 0xfeff

/-- Characters matched by the JavaScript regex class `\w`. -/
def wordChar (c : Char) : Bool :=
  c.isAlphanum || c == '_'

/-- The CJK range `一`–`龥` used by the heading slugifier. -/
def cjkChar (c : Char) : Bool :=
  0x4e00 ≤ c.toNat && c.toNat ≤ 0x9fa5

/-- Embeds `String.prototype.trim` on a character list. -/
def trimList (cs : List Char) : List Char :=
  ((cs.dropWhile jsWs).reverse.dropWhile jsWs).reverse

/-- Embeds `String.prototype.toLowerCase` (ASCII case mapping). -/
def lowerList (cs : List Char) : List Char :=
  cs.map Char.toLower

/-- Embeds `replace(/\s+/g, '-')`: every maximal whitespace run becomes one hyphen.
The flag records whether the previous character was inside a whitespace run. -/
def collapseWsAux : Bool → List Char → List Char
  | _, [] => []
  | inRun, c :: cs =>
    if jsWs c then
      if inRun then collapseWsAux true cs else '-' :: collapseWsAux true cs
    else c :: collapseWsAux false cs

def collapseWs (cs : List Char) : List Char :=
  collapseWsAux false cs

/-- Embeds `replace(/[^\w\-一-龥]+/g, '')`. -/
def stripNonWord (cs : List Char) : List Char :=
  cs.filter (fun c => wordChar c || c == '-' || cjkChar c)

/-- UTF-8 encoding of one scalar value. -/
def utf8Bytes (c : Char) : List Nat :=
  let n := c.toNat
  if n < 0x80 then [n]
  else if n < 0x800 then [0xc0 + n / 64, 0x80 + n % 64]
  else if n < 0x10000 then [0xe0 + n / 4096, 0x80 + (n / 64) % 64, 0x80 + n % 64]
  else [0xf0 + n / 262144, 0x80 + (n / 4096) % 64, 0x80 + (n / 64) % 64, 0x80 + n % 64]

def hexDigit (n : Nat) : Char :=
  "0123456789ABCDEF".toList.getD n '0'

/-- One percent-encoded byte, uppercase hex as produced by `encodeURIComponent`. -/
def pctByte (b : Nat) : List Char :=
  ['%', hexDigit (b / 16), hexDigit (b % 16)]

/-- Characters `encodeURIComponent` leaves unescaped. -/
def uriUnreserved (c : Char) : Bool :=
  c.isAlphanum || c == '-' || c == '_' || c == '.' || c == '!' || c == '~' ||
  c == '*' || c == '\'' || c == '(' || c == ')'

/-- Embeds `encodeURIComponent` on a character list. -/
def encodeURIComponentList (cs : List Char) : List Char :=
  (cs.map (fun c =>
    if uriUnreserved c then [c] else ((utf8Bytes c).map pctByte).flatten)).flatten

/-! ## Prose processor slugs (src/markdown/processor.ts)

Two slug computations exist in the source: the inline `slugify` option of the
anchor plugin (line 43) and the private method `MarkdownProcessor.slugify`
(lines 127–135).  Both start with `trim().toLowerCase().replace(/\s+/g, '-')`;
only the method additionally strips characters outside `[\w\-一-龥]`. -/

/-- The shared `trim().toLowerCase().replace(/\s+/g, '-')` pipeline. -/
def slugNorm (s : String) : List Char :=
  collapseWs (lowerList (trimList s.toList))

/-- The anchor-plugin slug of processor.ts line 43:
`encodeURIComponent(String(s).trim().toLowerCase().replace(/\s+/g, '-'))`. -/
def anchorSlugify (s : String) : String :=
  String.mk (encodeURIComponentList (slugNorm s))

/-- Embeds `MarkdownProcessor.slugify` of processor.ts lines 127–135: as above plus
`.replace(/[^\w\-一-龥]+/g, '')` before percent-encoding. -/
def slugify (s : String) : String :=
  String.mk (encodeURIComponentList (stripNonWord (slugNorm s)))

/-! ## Front matter and titles (src/core/doc-generator.ts) -/

/-- Does the second list start with the first? -/
def strStarts : List Char → List Char → Bool
  | [], _ => true
  | _ :: _, [] => false
  | a :: as, b :: bs => a == b && strStarts as bs

/-- Embeds `String.prototype.split` with a one-character separator. -/
def splitOnCharAux (sep : Char) : List Char → List Char → List String
  | acc, [] => [String.mk acc.reverse]
  | acc, c :: cs =>
    if c == sep then String.mk acc.reverse :: splitOnCharAux sep [] cs
    else splitOnCharAux sep (c :: acc) cs

def splitOnChar (sep : Char) (s : String) : List String :=
  splitOnCharAux sep [] s.toList

/-- Embeds `Array.prototype.join` with the given separator. -/
def joinWith (sep : String) : List String → String
  | [] => ""
  | [x] => x
  | x :: xs => x ++ sep ++ joinWith sep xs

/-- The lazy group of the front-matter pattern (three dashes, newline,
lazy capture, newline, three dashes): the shortest non-empty prefix of the
remaining text that is followed by a newline and three dashes. -/
def fmCapAux : List Char → Option (List Char)
  | [] => none
  | c :: cs =>
    if strStarts ['\n', '-', '-', '-'] cs then some [c]
    else
      match fmCapAux cs with
      | none => none
      | some t => some (c :: t)

/-- Embeds the anchored front-matter match of doc-generator.ts line 352
(`content.match` with the dash-delimited lazy pattern), returning the
captured group. -/
def frontmatterCapture (content : String) : Option String :=
  let cs := content.toList
  if strStarts ['-', '-', '-', '\n'] cs then (fmCapAux (cs.drop 4)).map String.mk
  else none

/-- Embeds `String.prototype.trim`. -/
def jsTrim (s : String) : String :=
  String.mk (trimList s.toList)

/-- Embeds `value.replace(/^['"]|['"]$/g, '')`: drop one leading and (from
what remains) one trailing quote character. -/
def stripQuoteEnds (v : String) : String :=
  let l := v.toList
  let l1 :=
    match l with
    | [] => []
    | c :: cs => if c == '\'' || c == '"' then cs else l
  let l2 :=
    match l1.reverse with
    | [] => []
    | c :: cs => if c == '\'' || c == '"' then cs.reverse else l1
  String.mk l2

/-- JavaScript object assignment `meta[key] = value`: overwrite in place or
append. -/
def metaSet (m : List (String × String)) (k v : String) : List (String × String) :=
  if m.any (fun e => e.1 == k) then
    m.map (fun e => if e.1 == k then (k, v) else e)
  else m ++ [(k, v)]

/-- One iteration of the `frontmatter.split('\n').forEach` loop in
`DocGenerator.extractFrontmatter` (doc-generator.ts lines 362–374). -/
def fmLineStep (acc : String × List (String × String)) (line : String) :
    String × List (String × String) :=
  match splitOnChar ':' line with
  | [] => acc
  | key :: valueParts =>
    if key ≠ "" && valueParts.length > 0 then
      let value := jsTrim (joinWith ":" valueParts)
      let trimmedKey := jsTrim key
      if trimmedKey == "title" then (stripQuoteEnds value, acc.2)
      else (acc.1, metaSet acc.2 trimmedKey (stripQuoteEnds value))
    else acc

/-- Embeds `DocGenerator.extractFrontmatter` (doc-generator.ts lines 351–377):
title plus metadata bag; `none` metadata when no front-matter block matched. -/
def extractFrontmatter (content : String) : String × Option (List (String × String)) :=
  match frontmatterCapture content with
  | none => ("", none)
  | some fm =>
    let r := (splitOnChar '\n' fm).foldl fmLineStep ("", [])
    (r.1, some r.2)

/-- Embeds `path.basename`, POSIX separator. -/
def pathBasename (p : String) : String :=
  ((splitOnChar '/' p).getLast?).getD ""

/-- Embeds `path.extname` applied to a basename: suffix from the last dot,
empty for dotfiles and dot-free names. -/
def extnameOfBase (b : List Char) : List Char :=
  let rev := b.reverse
  let tail := rev.takeWhile (fun c => c != '.')
  if tail.length + 1 < b.length && rev.length > tail.length then
    '.' :: tail.reverse
  else []

/-- Embeds `word.charAt(0).toUpperCase() + word.slice(1)`. -/
def capitalizeWord (w : String) : String :=
  match w.toList with
  | [] => ""
  | c :: cs => String.mk (c.toUpper :: cs)

/-- Embeds `DocGenerator.getTitleFromPath` (doc-generator.ts lines 382–388):
basename without extension, hyphen-split, each word capitalized, joined by
spaces. -/
def getTitleFromPath (filePath : String) : String :=
  let b := pathBasename filePath
  let ext := extnameOfBase b.toList
  let base := String.mk (b.toList.take (b.toList.length - ext.length))
  joinWith " " ((splitOnChar '-' base).map capitalizeWord)

/-- The title chosen for a markdown Document Node
(doc-generator.ts line 94: `title || this.getTitleFromPath(relativePath)`). -/
def mdDocTitle (content relativePath : String) : String :=
  let t := (extractFrontmatter content).1
  if t == "" then getTitleFromPath relativePath else t

/-! ## Data model (src/types/index.ts) -/

/-- DocNode.type. -/
inductive DocType where
  | markdown
  | api
  | component
deriving DecidableEq, Repr

/-- Document Node (types lines 209–220). -/
structure DocNode where
  path : String
  title : String
  content : String
  type : DocType
  meta : Option (List (String × String)) := none
deriving DecidableEq, Repr

/-- ApiDocNode.kind (types line 247). -/
inductive ApiKind where
  | kFunction
  | kClass
  | kInterface
  | kType
  | kVariable
  | kEnum
deriving DecidableEq, Repr

/-- The string form of an ApiDocNode kind as it appears in the source. -/
def kindStr : ApiKind → String
  | .kFunction => "function"
  | .kClass => "class"
  | .kInterface => "interface"
  | .kType => "type"
  | .kVariable => "variable"
  | .kEnum => "enum"

/-- TypeDoc (types lines 285–292). -/
structure TypeDocM where
  name : String
  type : String
  isGeneric : Bool := false
deriving DecidableEq, Repr

/-- SourceLocation (types lines 297–304). -/
structure SourceLocM where
  file : String
  line : Nat
  column : Option Nat := none
deriving DecidableEq, Repr

/-- ParameterDoc (types lines 269–280). -/
structure ParameterDocM where
  name : String
  type : TypeDocM
  description : Option String := none
  optional : Bool := false
  defaultValue : Option String := none
deriving DecidableEq, Repr

/-- A JSDoc tag value: one string or a list of strings. -/
inductive TagVal where
  | one (v : String)
  | many (vs : List String)
deriving DecidableEq, Repr

/-- A class/interface member node produced by the TypeScript parser.  In the
source these are `ApiDocNode`s stored in `children`; members themselves never
carry children, so they are modelled by a child type without the `children`
field. -/
structure ApiChildM where
  name : String
  kind : ApiKind
  description : Option String := none
  signature : Option String := none
  parameters : Option (List ParameterDocM) := none
  returns : Option TypeDocM := none
  examples : Option (List String) := none
  tags : Option (List (String × TagVal)) := none
  source : Option SourceLocM := none
deriving DecidableEq, Repr

/-- ApiDocNode (types lines 243–264). -/
structure ApiDocNodeM where
  name : String
  kind : ApiKind
  description : Option String := none
  signature : Option String := none
  parameters : Option (List ParameterDocM) := none
  returns : Option TypeDocM := none
  examples : Option (List String) := none
  tags : Option (List (String × TagVal)) := none
  source : Option SourceLocM := none
  children : Option (List ApiChildM) := none
deriving DecidableEq, Repr

/-- PropDoc.type: a string or a union of literal type names. -/
inductive PropTypeM where
  | str (s : String)
  | union (l : List String)
deriving DecidableEq, Repr

/-- PropDoc (types lines 329–340). -/
structure PropDocM where
  name : String
  type : PropTypeM
  description : Option String := none
  required : Bool := false
  default : Option String := none
deriving DecidableEq, Repr

/-- EventDoc (types lines 345–352). -/
structure EventDocM where
  name : String
  description : Option String := none
  payload : Option TypeDocM := none
deriving DecidableEq, Repr

/-- SlotDoc (types lines 357–366).  The source field `scoped` is a reserved
word in Lean and is renamed `isScoped`. -/
structure SlotDocM where
  name : String
  description : Option String := none
  isScoped : Bool := false
deriving DecidableEq, Repr

/-- ComponentDoc (types lines 309–324). -/
structure ComponentDocM where
  name : String
  description : Option String := none
  props : List PropDocM := []
  events : List EventDocM := []
  slots : List SlotDocM := []
  source : Option SourceLocM := none
deriving DecidableEq, Repr

/-- JavaScript truthiness of an optional string (`undefined` and the empty
string are falsy). -/
def optStrTruthy : Option String → Bool
  | none => false
  | some s => s != ""

/-- JavaScript `x || '-'` for an optional string. -/
def orDash : Option String → String
  | none => "-"
  | some s => if s == "" then "-" else s

/-! ## HTML rendering (src/core/doc-generator.ts) -/

/-- Embeds `DocGenerator.escapeHtml` (doc-generator.ts lines 393–402) on one
character. -/
def escChar (c : Char) : List Char :=
  if c == '&' then "&amp;".toList
  else if c == '<' then "&lt;".toList
  else if c == '>' then "&gt;".toList
  else if c == '"' then "&quot;".toList
  else if c == '\'' then "&#039;".toList
  else [c]

/-- Embeds `DocGenerator.escapeHtml`: replace the five HTML-special
characters by their entities. -/
def escapeHtml (text : String) : String :=
  String.mk ((text.toList.map escChar).flatten)

/-- One row of the parameters table (doc-generator.ts lines 245–252). -/
def paramRow (p : ParameterDocM) : String :=
  "<tr>" ++
    "<td><code>" ++ p.name ++ "</code>" ++
      (if p.optional then " <em>(可选)</em>" else "") ++ "</td>" ++
    "<td><code>" ++ p.type.type ++ "</code></td>" ++
    "<td>" ++ orDash p.description ++ "</td>" ++
    "<td>" ++ (match p.defaultValue with
      | some d => if d == "" then "-" else "<code>" ++ d ++ "</code>"
      | none => "-") ++ "</td>" ++
  "</tr>"

/-- The per-node block of `DocGenerator.renderApiDoc`
(doc-generator.ts lines 227–270), one parenthesized segment per `html +=`
statement of the source. -/
def apiItemHtml (node : ApiDocNodeM) : String :=
  ("<div class=\"api-item api-" ++ kindStr node.kind ++ "\">") ++
  ("<h3 id=\"" ++ node.name ++ "\">" ++ node.name ++ "</h3>") ++
  (if optStrTruthy node.description then
    "<p class=\"description\">" ++ node.description.getD "" ++ "</p>"
   else "") ++
  (if optStrTruthy node.signature then
    "<pre><code>" ++ escapeHtml (node.signature.getD "") ++ "</code></pre>"
   else "") ++
  (match node.parameters with
   | some params =>
     if params.length > 0 then
       "<h4>参数</h4>" ++
       "<table class=\"params-table\">" ++
       "<thead><tr><th>名称</th><th>类型</th><th>描述</th><th>默认值</th></tr></thead>" ++
       "<tbody>" ++
       params.foldl (fun acc p => acc ++ paramRow p) "" ++
       "</tbody></table>"
     else ""
   | none => "") ++
  (match node.returns with
   | some r => "<h4>返回值</h4>" ++ "<p><code>" ++ r.type ++ "</code></p>"
   | none => "") ++
  (match node.examples with
   | some exs =>
     if exs.length > 0 then
       "<h4>示例</h4>" ++
       exs.foldl (fun acc e => acc ++ ("<pre><code>" ++ escapeHtml e ++ "</code></pre>")) ""
     else ""
   | none => "") ++
  "</div>"

/-- Embeds `DocGenerator.renderApiDoc` (doc-generator.ts lines 224–274). -/
def renderApiDoc (apiNodes : List ApiDocNodeM) : String :=
  (apiNodes.foldl (fun acc n => acc ++ apiItemHtml n) "<div class=\"api-doc\">") ++ "</div>"

/-- Rendering of a PropDoc type:
`Array.isArray(prop.type) ? prop.type.join(' | ') : prop.type`. -/
def propTypeStr : PropTypeM → String
  | .str s => s
  | .union l => joinWith " | " l

/-- One row of the component props table (doc-generator.ts lines 295–303). -/
def propRow (p : PropDocM) : String :=
  "<tr>" ++
    "<td><code>" ++ p.name ++ "</code></td>" ++
    "<td><code>" ++ propTypeStr p.type ++ "</code></td>" ++
    "<td>" ++ (if p.required then "✓" else "-") ++ "</td>" ++
    "<td>" ++ (match p.default with
      | some d => if d == "" then "-" else "<code>" ++ d ++ "</code>"
      | none => "-") ++ "</td>" ++
    "<td>" ++ orDash p.description ++ "</td>" ++
  "</tr>"

/-- One row of the component events table (doc-generator.ts lines 315–321). -/
def eventRow (e : EventDocM) : String :=
  "<tr>" ++
    "<td><code>" ++ e.name ++ "</code></td>" ++
    "<td>" ++ (match e.payload with
      | some p => "<code>" ++ p.type ++ "</code>"
      | none => "-") ++ "</td>" ++
    "<td>" ++ orDash e.description ++ "</td>" ++
  "</tr>"

/-- One row of the component slots table (doc-generator.ts lines 333–339). -/
def slotRow (s : SlotDocM) : String :=
  "<tr>" ++
    "<td><code>" ++ s.name ++ "</code></td>" ++
    "<td>" ++ (if s.isScoped then "✓" else "-") ++ "</td>" ++
    "<td>" ++ orDash s.description ++ "</td>" ++
  "</tr>"

/-- Embeds `DocGenerator.renderComponentDoc` (doc-generator.ts lines
279–346). -/
def renderComponentDoc (component : ComponentDocM) : String :=
  "<div class=\"component-doc\">" ++
  "<h2>" ++ component.name ++ "</h2>" ++
  (if optStrTruthy component.description then
    "<p class=\"description\">" ++ component.description.getD "" ++ "</p>"
   else "") ++
  (if component.props.length > 0 then
    "<h3>Props</h3>" ++
    "<table class=\"props-table\">" ++
    "<thead><tr><th>名称</th><th>类型</th><th>必需</th><th>默认值</th><th>描述</th></tr></thead>" ++
    "<tbody>" ++ component.props.foldl (fun acc p => acc ++ propRow p) "" ++
    "</tbody></table>"
   else "") ++
  (if component.events.length > 0 then
    "<h3>Events</h3>" ++
    "<table class=\"events-table\">" ++
    "<thead><tr><th>事件名</th><th>参数</th><th>描述</th></tr></thead>" ++
    "<tbody>" ++ component.events.foldl (fun acc e => acc ++ eventRow e) "" ++
    "</tbody></table>"
   else "") ++
  (if component.slots.length > 0 then
    "<h3>Slots</h3>" ++
    "<table class=\"slots-table\">" ++
    "<thead><tr><th>插槽名</th><th>作用域</th><th>描述</th></tr></thead>" ++
    "<tbody>" ++ component.slots.foldl (fun acc s => acc ++ slotRow s) "" ++
    "</tbody></table>"
   else "") ++
  "</div>"

/-! ## Configuration model (consumed by the builder and the plugin hooks) -/

/-- Navigation item: `renderNav` branches on the truthiness of `item.items`. -/
inductive NavItem where
  | link (text lnk : String)
  | group (text : String) (items : List NavItem)
deriving Repr

/-- Sidebar item: `renderSidebarItems` branches on `item.items` and reads
`item.collapsed`. -/
inductive SidebarItem where
  | link (text lnk : String)
  | group (text : String) (collapsed : Bool) (items : List SidebarItem)
deriving Repr

/-- SidebarConfig: an array of items or a path-keyed record (the builder
renders the record case as an empty sidebar). -/
inductive SidebarCfg where
  | items (l : List SidebarItem)
  | record
deriving Repr

structure FooterCfg where
  message : Option String := none
  copyright : Option String := none
deriving Repr

structure ThemeCfg where
  primaryColor : Option String := none
  logo : Option String := none
  footer : Option FooterCfg := none
deriving Repr

/-- The slice of ResolvedDocsConfig read by the embedded components. -/
structure DocsConfigM where
  title : String := ""
  description : String := ""
  base : String := "/"
  outDir : String := "dist"
  docsDir : String := "docs"
  root : String := "."
  componentsDir : String := "src/components"
  theme : ThemeCfg := {}
  nav : List NavItem := []
  sidebar : SidebarCfg := .items []
deriving Repr

/-! ## Plugin manager (src/core/plugin-manager.ts) -/

/-- A plugin: optional hook functions plus flags recording the presence of
the observer hooks (whose bodies are irrelevant to the document model).
A `config` hook returning `none` models a JavaScript hook returning a falsy
value (`undefined`); returning `some c` models returning the replacement
configuration `c`. -/
structure DocsPlugin where
  name : String
  config : Option (DocsConfigM → Option DocsConfigM) := none
  transformMarkdown : Option (String → String → String) := none
  hasBeforeGenerate : Bool := false
  hasAfterGenerate : Bool := false

/-- Embeds `PluginManager.config` (plugin-manager.ts lines 44–58): the
`result` accumulator threaded through the `for` loop. -/
def pmConfig : List DocsPlugin → DocsConfigM → DocsConfigM
  | [], result => result
  | p :: ps, result =>
    match p.config with
    | none => pmConfig ps result
    | some h =>
      match h result with
      | none => pmConfig ps result
      | some modified => pmConfig ps modified

/-- Embeds `PluginManager.transformMarkdown` (plugin-manager.ts lines
75–86). -/
def pmTransformMarkdown : List DocsPlugin → String → String → String
  | [], result, _ => result
  | p :: ps, result, file =>
    match p.transformMarkdown with
    | none => pmTransformMarkdown ps result file
    | some h => pmTransformMarkdown ps (h result file) file

/-- Specification-side step of the config chain: a plugin lacking the hook is
the identity, a hook returning nothing leaves the value unchanged. -/
def configHookStep (acc : DocsConfigM) (p : DocsPlugin) : DocsConfigM :=
  match p.config with
  | none => acc
  | some h => (h acc).getD acc

/-- Specification-side description of `config` as a left-to-right fold. -/
def configFoldSpec (plugins : List DocsPlugin) (c : DocsConfigM) : DocsConfigM :=
  plugins.foldl configHookStep c

/-- Specification-side step of the markdown-transform chain. -/
def transformHookStep (file : String) (acc : String) (p : DocsPlugin) : String :=
  match p.transformMarkdown with
  | none => acc
  | some h => h acc file

/-- Specification-side description of `transformMarkdown` as a left-to-right
fold. -/
def transformFoldSpec (plugins : List DocsPlugin) (content file : String) : String :=
  plugins.foldl (transformHookStep file) content

/-! ## Site builder (src/builder/build.ts) -/

/-- The joined item list of `renderNav` (build.ts lines 122–138), with the
template literals' exact whitespace.  The `fuel` argument only makes the
nested recursion structural; `renderNavList` supplies enough fuel for the
whole tree, so it is never exhausted on an actual navigation tree. -/
def renderNavGo (base : String) : Nat → List NavItem → String
  | 0, _ => ""
  | _ + 1, [] => ""
  | fuel + 1, NavItem.link text lnk :: xs =>
    "<a href=\"" ++ base ++ lnk ++ "\" class=\"nav-item\">" ++ text ++ "</a>" ++
    renderNavGo base fuel xs
  | fuel + 1, NavItem.group text items :: xs =>
    "\n        <div class=\"nav-item dropdown\">\n          <span>" ++ text ++
    "</span>\n          <div class=\"dropdown-menu\">\n            " ++
    renderNavGo base fuel items ++
    "\n          </div>\n        </div>\n        " ++
    renderNavGo base fuel xs

/-- Traversal-step budget for the configuration trees.  `renderNavGo` and
`sidebarItemsGo` consume one unit per item or group, so any configuration
with fewer than a million entries is rendered in full. -/
def cfgFuel : Nat := 1000000

/-- Embeds `renderNav`: the mapped items joined by the empty string. -/
def renderNavList (base : String) (nav : List NavItem) : String :=
  renderNavGo base cfgFuel nav

/-- The joined item list of `renderSidebarItems` (build.ts lines 155–169),
fueled like `renderNavGo`. -/
def sidebarItemsGo (base : String) : Nat → List SidebarItem → String
  | 0, _ => ""
  | _ + 1, [] => ""
  | fuel + 1, SidebarItem.link text lnk :: xs =>
    "<li><a href=\"" ++ base ++ lnk ++ "\">" ++ text ++ "</a></li>" ++
    sidebarItemsGo base fuel xs
  | fuel + 1, SidebarItem.group text collapsed items :: xs =>
    "\n        <li class=\"sidebar-group " ++ (if collapsed then "collapsed" else "") ++
    "\">\n          <div class=\"sidebar-group-title\">" ++ text ++
    "</div>\n          " ++
    ("<ul class=\"sidebar-menu\">" ++ sidebarItemsGo base fuel items ++ "</ul>") ++
    "\n        </li>\n        " ++
    sidebarItemsGo base fuel xs

/-- Embeds `renderSidebarItems`. -/
def renderSidebarItemList (base : String) (items : List SidebarItem) : String :=
  "<ul class=\"sidebar-menu\">" ++ sidebarItemsGo base cfgFuel items ++ "</ul>"

/-- Embeds `renderSidebar` (build.ts lines 143–150): only the array form is
rendered; the path-keyed record form yields the empty string. -/
def renderSidebar (sidebar : SidebarCfg) (base : String) : String :=
  match sidebar with
  | .items l => renderSidebarItemList base l
  | .record => ""

/-- Embeds `renderPage` (build.ts lines 64–117) with the template literal's
exact whitespace. -/
def renderPage (config : DocsConfigM) (doc : DocNode) : String :=
  let logoHtml :=
    match config.theme.logo with
    | some logo =>
      if logo == "" then ""
      else "<img src=\"" ++ logo ++ "\" alt=\"" ++ config.title ++ "\">"
    | none => ""
  let footerHtml :=
    match config.theme.footer with
    | some f =>
      "\n    <footer class=\"footer\">\n      <div class=\"container\">\n        " ++
      (match f.message with
        | some m => if m == "" then "" else "<p>" ++ m ++ "</p>"
        | none => "") ++
      "\n        " ++
      (match f.copyright with
        | some cp => if cp == "" then "" else "<p>" ++ cp ++ "</p>"
        | none => "") ++
      "\n      </div>\n    </footer>\n    "
    | none => ""
  "<!DOCTYPE html>\n<html lang=\"zh-CN\">\n<head>\n  <meta charset=\"UTF-8\">\n  " ++
  "<meta name=\"viewport\" content=\"width=device-width, initial-scale=1.0\">\n  <title>" ++
  doc.title ++ " - " ++ config.title ++
  "</title>\n  <meta name=\"description\" content=\"" ++ config.description ++
  "\">\n  <link rel=\"stylesheet\" href=\"" ++ config.base ++
  "assets/style.css\">\n</head>\n<body>\n  <div id=\"app\">\n    <header class=\"header\">" ++
  "\n      <div class=\"container\">\n        <div class=\"logo\">\n          " ++
  logoHtml ++
  "\n          <span>" ++ config.title ++ "</span>\n        </div>\n        <nav class=\"nav\">\n          " ++
  renderNavList config.base config.nav ++
  "\n        </nav>\n      </div>\n    </header>\n\n    <div class=\"container main\">\n      " ++
  "<aside class=\"sidebar\">\n        " ++
  renderSidebar config.sidebar config.base ++
  "\n      </aside>\n\n      <main class=\"content\">\n        <h1>" ++ doc.title ++
  "</h1>\n        " ++ doc.content ++
  "\n      </main>\n\n      <aside class=\"toc\">\n        <h4>目录</h4>\n        " ++
  "<div id=\"toc\"></div>\n      </aside>\n    </div>\n\n    " ++
  footerHtml ++
  "\n  </div>\n\n  <script src=\"" ++ config.base ++
  "assets/main.js\"></script>\n</body>\n</html>"

/-- The output tree as an association list from paths to file contents. -/
def fsWrite (fs : List (String × String)) (p content : String) : List (String × String) :=
  if fs.any (fun e => e.1 == p) then fs.map (fun e => if e.1 == p then (p, content) else e)
  else fs ++ [(p, content)]

def fsLookup (fs : List (String × String)) (p : String) : Option String :=
  (fs.find? (fun e => e.1 == p)).map (fun e => e.2)

/-- Embeds `doc.path.replace(/\.md$/, '.html')`. -/
def replaceMdHtml (p : String) : String :=
  let pl := p.toList
  if strStarts ".md".toList.reverse pl.reverse then
    String.mk (pl.take (pl.length - 3) ++ ".html".toList)
  else p

/-- Embeds `path.join` for a directory and a relative path. -/
def pathJoin (a b : String) : String :=
  a ++ "/" ++ b

/-- Embeds `generateHtmlFiles` (build.ts lines 42–59): for each Document Node
compute the output path and write the rendered page, unconditionally
overwriting whatever is already there.  `fs0` is the state of the output tree
when the loop starts. -/
def generateHtmlFiles (config : DocsConfigM) (docs : List DocNode)
    (fs0 : List (String × String)) : List (String × String) :=
  docs.foldl (fun fs doc =>
    fsWrite fs (pathJoin config.outDir (replaceMdHtml doc.path)) (renderPage config doc)) fs0

/-! ## Document generator (src/core/doc-generator.ts)

Files are represented by their category-relative paths: the source
enumerates absolute paths and immediately derives `path.relative(dir, file)`,
so the relative name is the identity the rest of the pipeline sees.  The
external operations — file reads and the markdown-it / TypeScript / SFC /
Babel front ends — are inputs of the run: each either yields a value or
throws (`Except.error`). -/

structure GenEnv where
  mdFiles : List String := []
  readFile : String → Except String String := fun _ => .error "ENOENT"
  /-- `MarkdownProcessor.render`; total because the method catches its own
  renderer errors and substitutes an error placeholder (processor.ts 72–79). -/
  render : String → String := id
  apiFiles : List String := []
  parseTs : String → Except String (List ApiDocNodeM) := fun _ => .error "ENOENT"
  vueFiles : List String := []
  parseVue : String → Except String ComponentDocM := fun _ => .error "ENOENT"
  reactFiles : List String := []
  parseReact : String → Except String ComponentDocM := fun _ => .error "ENOENT"

/-- The try-block body for one markdown file (doc-generator.ts lines 78–98). -/
def processMdFile (env : GenEnv) (plugins : List DocsPlugin) (file : String) :
    Except String DocNode :=
  match env.readFile file with
  | .error e => .error e
  | .ok content =>
    let transformed := pmTransformMarkdown plugins content file
    let html := env.render transformed
    let fm := extractFrontmatter content
    .ok { path := file
          title := if fm.1 == "" then getTitleFromPath file else fm.1
          content := html
          type := .markdown
          meta := fm.2 }

/-- The markdown generation loop: a failing file is caught, logged and
skipped (doc-generator.ts lines 77–104). -/
def mdDocsLoop (env : GenEnv) (plugins : List DocsPlugin) : List String → List DocNode
  | [] => []
  | f :: fs =>
    match processMdFile env plugins f with
    | .ok d => d :: mdDocsLoop env plugins fs
    | .error _ => mdDocsLoop env plugins fs

/-- Embeds `DocGenerator.generateMarkdownDocs`. -/
def generateMarkdownDocs (env : GenEnv) (plugins : List DocsPlugin) : List DocNode :=
  mdDocsLoop env plugins env.mdFiles

/-- Embeds `relativePath.replace(/\.tsx?$/, '.html')`. -/
def replaceTsxHtml (p : String) : String :=
  let pl := p.toList
  if strStarts ".tsx".toList.reverse pl.reverse then
    String.mk (pl.take (pl.length - 4) ++ ".html".toList)
  else if strStarts ".ts".toList.reverse pl.reverse then
    String.mk (pl.take (pl.length - 3) ++ ".html".toList)
  else p

/-- The try-block body for one API source file (doc-generator.ts lines
131–147); `none` models the `continue` taken for files without API nodes. -/
def processApiFile (env : GenEnv) (file : String) : Except String (Option DocNode) :=
  match env.parseTs file with
  | .error e => .error e
  | .ok apiNodes =>
    if apiNodes.length == 0 then .ok none
    else
      .ok (some { path := "api/" ++ replaceTsxHtml file
                  title := getTitleFromPath file
                  content := renderApiDoc apiNodes
                  type := .api })

/-- The API generation loop (doc-generator.ts lines 130–151). -/
def apiDocsLoop (env : GenEnv) : List String → List DocNode
  | [] => []
  | f :: fs =>
    match processApiFile env f with
    | .ok (some d) => d :: apiDocsLoop env fs
    | .ok none => apiDocsLoop env fs
    | .error _ => apiDocsLoop env fs

/-- Embeds `DocGenerator.generateApiDocs`. -/
def generateApiDocs (env : GenEnv) : List DocNode :=
  apiDocsLoop env env.apiFiles

/-- Embeds `relativePath.replace(/\.vue$/, '.html')`. -/
def replaceVueHtml (p : String) : String :=
  let pl := p.toList
  if strStarts ".vue".toList.reverse pl.reverse then
    String.mk (pl.take (pl.length - 4) ++ ".html".toList)
  else p

/-- Embeds `relativePath.replace(/\.(jsx|tsx)$/, '.html')`. -/
def replaceJsxTsxHtml (p : String) : String :=
  let pl := p.toList
  if strStarts ".jsx".toList.reverse pl.reverse ||
      strStarts ".tsx".toList.reverse pl.reverse then
    String.mk (pl.take (pl.length - 4) ++ ".html".toList)
  else p

/-- The try-block body for one Vue component file (doc-generator.ts lines
172–184). -/
def processVueFile (env : GenEnv) (file : String) : Except String DocNode :=
  (env.parseVue file).map fun cd =>
    { path := "components/" ++ replaceVueHtml file
      title := cd.name
      content := renderComponentDoc cd
      type := .component }

/-- The try-block body for one React component file (doc-generator.ts lines
199–211). -/
def processReactFile (env : GenEnv) (file : String) : Except String DocNode :=
  (env.parseReact file).map fun cd =>
    { path := "components/" ++ replaceJsxTsxHtml file
      title := cd.name
      content := renderComponentDoc cd
      type := .component }

/-- The Vue component generation loop. -/
def vueDocsLoop (env : GenEnv) : List String → List DocNode
  | [] => []
  | f :: fs =>
    match processVueFile env f with
    | .ok d => d :: vueDocsLoop env fs
    | .error _ => vueDocsLoop env fs

/-- The React component generation loop. -/
def reactDocsLoop (env : GenEnv) : List String → List DocNode
  | [] => []
  | f :: fs =>
    match processReactFile env f with
    | .ok d => d :: reactDocsLoop env fs
    | .error _ => reactDocsLoop env fs

/-- Embeds `DocGenerator.generateComponentDocs` (Vue files first, then React
files). -/
def generateComponentDocs (env : GenEnv) : List DocNode :=
  vueDocsLoop env env.vueFiles ++ reactDocsLoop env env.reactFiles

/-- Embeds `DocGenerator.generate` (doc-generator.ts lines 29–61): the
Document Node set accumulated over the three categories. -/
def docGenerate (env : GenEnv) (plugins : List DocsPlugin) : List DocNode :=
  generateMarkdownDocs env plugins ++ generateApiDocs env ++ generateComponentDocs env

/-! ## Vue component parser (src/parsers/vue.ts)

The regular expressions of the source become explicit scanners with
JavaScript leftmost-match semantics: a match is attempted at each position
from the left; on failure the start position advances by one, on success a
global scan resumes after the match.  `fuel` arguments only bound the
recursion (callers pass `length + 1`, which is always sufficient because
every step either consumes input or advances the start). -/

/-- Does `pat` occur as a substring? (`String.prototype.includes`.) -/
def containsSub (cs pat : List Char) : Bool :=
  match cs with
  | [] => strStarts pat []
  | _ :: tl => strStarts pat cs || containsSub tl pat

/-- Leftmost match of `lit` + a non-empty brace-free capture + the two
characters closing-brace, greater-than (the shape of the `defineProps` and
`defineEmits` patterns, vue.ts lines 95 and 147). -/
def captureAngleBlock (lit : List Char) : List Char → Option (List Char)
  | [] => none
  | c :: cs =>
    if strStarts lit (c :: cs) then
      let rest := (c :: cs).drop lit.length
      let cap := rest.takeWhile (fun x => x != '\x7d')
      if cap.length > 0 && strStarts ['\x7d', '>'] (rest.drop cap.length) then some cap
      else captureAngleBlock lit cs
    else captureAngleBlock lit cs

/-- Leftmost match of the options-object pattern of vue.ts line 111:
`props:`, optional whitespace, an open brace, a non-empty brace-free capture
and a closing brace. -/
def capturePropsObject : List Char → Option (List Char)
  | [] => none
  | c :: cs =>
    if strStarts "props:".toList (c :: cs) then
      let rest := (c :: cs).drop 6
      let ws := rest.takeWhile jsWs
      match rest.drop ws.length with
      | '\x7b' :: bs =>
        let cap := bs.takeWhile (fun x => x != '\x7d')
        if cap.length > 0 && strStarts ['\x7d'] (bs.drop cap.length) then some cap
        else capturePropsObject cs
      | _ => capturePropsObject cs
    else capturePropsObject cs

/-- One match of the typed-prop pattern of vue.ts line 98: word capture,
optional question mark, colon, whitespace, then a non-empty run free of
semicolons and newlines. -/
structure PropMatch where
  full : List Char
  name : List Char
  typeRaw : List Char
deriving DecidableEq, Repr

/-- Backtracking of the greedy whitespace before the type capture: the
latest split position whose character survives the capture class.  Returns
the whitespace kept by the quantifier and the remainder that joins the
capture. -/
def wsSplitBack : List Char → Option (List Char × List Char)
  | [] => none
  | w :: ws =>
    match wsSplitBack ws with
    | some (pre, tl) => some (w :: pre, tl)
    | none => if w == '\n' then none else some ([], w :: ws)

/-- Global scan of the typed-prop pattern over a block. -/
def scanPropMatches : Nat → List Char → List PropMatch
  | 0, _ => []
  | _ + 1, [] => []
  | fuel + 1, c :: cs =>
    if wordChar c then
      let name := (c :: cs).takeWhile wordChar
      let rest := (c :: cs).drop name.length
      let qm : List Char := match rest with
        | '?' :: _ => ['?']
        | _ => []
      match rest.drop qm.length with
      | ':' :: r3 =>
        let ws := r3.takeWhile jsWs
        let r4 := r3.drop ws.length
        let ty := r4.takeWhile (fun x => !(x == ';' || x == '\n'))
        if ty.length > 0 then
          { full := name ++ qm ++ [':'] ++ ws ++ ty, name := name, typeRaw := ty } ::
            scanPropMatches fuel (r4.drop ty.length)
        else
          match wsSplitBack ws with
          | some (kept, tl) =>
            let cap := tl.takeWhile (fun x => !(x == ';' || x == '\n'))
            { full := name ++ qm ++ [':'] ++ kept ++ cap, name := name, typeRaw := cap } ::
              scanPropMatches fuel (tl.drop cap.length ++ r4)
          | none => scanPropMatches fuel cs
      | _ => scanPropMatches fuel cs
    else scanPropMatches fuel cs

/-- One entry of the options-object scan of vue.ts line 114: word capture,
colon, whitespace, then a braced non-empty body. -/
structure ObjEntry where
  name : List Char
  body : List Char
deriving DecidableEq, Repr

/-- Global scan of the options-object entry pattern. -/
def scanObjEntries : Nat → List Char → List ObjEntry
  | 0, _ => []
  | _ + 1, [] => []
  | fuel + 1, c :: cs =>
    if wordChar c then
      let name := (c :: cs).takeWhile wordChar
      match (c :: cs).drop name.length with
      | ':' :: r2 =>
        let ws := r2.takeWhile jsWs
        match r2.drop ws.length with
        | '\x7b' :: r4 =>
          let body := r4.takeWhile (fun x => x != '\x7d')
          if body.length > 0 && strStarts ['\x7d'] (r4.drop body.length) then
            { name := name, body := body } ::
              scanObjEntries fuel ((r4.drop body.length).drop 1)
          else scanObjEntries fuel cs
        | _ => scanObjEntries fuel cs
      | _ => scanObjEntries fuel cs
    else scanObjEntries fuel cs

/-- Leftmost match of the pattern of vue.ts line 118: `type:`, whitespace,
then a non-empty word capture. -/
def typeMatchCapture : Nat → List Char → Option (List Char)
  | 0, _ => none
  | _ + 1, [] => none
  | fuel + 1, c :: cs =>
    if strStarts "type:".toList (c :: cs) then
      let rest := (c :: cs).drop 5
      let w := (rest.drop (rest.takeWhile jsWs).length).takeWhile wordChar
      if w.length > 0 then some w else typeMatchCapture fuel cs
    else typeMatchCapture fuel cs

/-- Leftmost match of the pattern of vue.ts line 119: `required:`,
whitespace, then the literal `true` or `false`. -/
def requiredMatchCapture : Nat → List Char → Option (List Char)
  | 0, _ => none
  | _ + 1, [] => none
  | fuel + 1, c :: cs =>
    if strStarts "required:".toList (c :: cs) then
      let rest := (c :: cs).drop 9
      let r2 := rest.drop (rest.takeWhile jsWs).length
      if strStarts "true".toList r2 then some "true".toList
      else if strStarts "false".toList r2 then some "false".toList
      else requiredMatchCapture fuel cs
    else requiredMatchCapture fuel cs

/-- The character class of the regex dot (everything but line
terminators). -/
def dotChar (c : Char) : Bool :=
  !(c == '\n' || c.toNat == 13 || c.toNat == 0x2028 || c.toNat == 0x2029)

/-- The lazy capture of vue.ts line 120: the shortest non-empty dot-class
run followed by a comma or the end of the input. -/
def lazyCapToComma : List Char → Option (List Char)
  | [] => none
  | c :: cs =>
    if !dotChar c then none
    else
      match cs with
      | [] => some [c]
      | d :: _ =>
        if d == ',' then some [c]
        else (lazyCapToComma cs).map (fun t => c :: t)

/-- Backtracking of the greedy whitespace before the lazy default capture:
longest kept whitespace first. -/
def tryDefaultSplits : List Char → List Char → Option (List Char)
  | [], rest => lazyCapToComma rest
  | w :: ws, rest =>
    match tryDefaultSplits ws rest with
    | some cap => some cap
    | none => lazyCapToComma (w :: (ws ++ rest))

/-- Leftmost match of the pattern of vue.ts line 120: `default:`,
whitespace, then a lazy capture up to a comma or the end. -/
def defaultMatchCapture : Nat → List Char → Option (List Char)
  | 0, _ => none
  | _ + 1, [] => none
  | fuel + 1, c :: cs =>
    if strStarts "default:".toList (c :: cs) then
      let rest := (c :: cs).drop 8
      let ws := rest.takeWhile jsWs
      match tryDefaultSplits ws (rest.drop ws.length) with
      | some cap => some cap
      | none => defaultMatchCapture fuel cs
    else defaultMatchCapture fuel cs

/-- The parsed sections of a single-file component
(`@vue/compiler-sfc` descriptor slice read by the extractors). -/
structure SfcDescriptor where
  script : Option String := none
  scriptSetup : Option String := none
  template : Option String := none

/-- Embeds `descriptor.script?.content || descriptor.scriptSetup?.content
|| ''`. -/
def sfcScriptContent (d : SfcDescriptor) : String :=
  let setupOr : String := match d.scriptSetup with
    | some t => if t != "" then t else ""
    | none => ""
  match d.script with
  | some s => if s != "" then s else setupOr
  | none => setupOr

/-- Embeds `extractProps` (vue.ts lines 85–132): the typed `defineProps`
block and the options-style `props` object, extracted independently and
concatenated. -/
def extractProps (d : SfcDescriptor) : List PropDocM :=
  if d.script.isNone && d.scriptSetup.isNone then []
  else
    let sc := (sfcScriptContent d).toList
    let fromDefine : List PropDocM :=
      match captureAngleBlock "defineProps<\x7b".toList sc with
      | some block =>
        (scanPropMatches (block.length + 1) block).map fun m =>
          { name := String.mk m.name
            type := .str (jsTrim (String.mk m.typeRaw))
            required := !(m.full.contains '?') }
      | none => []
    let fromObject : List PropDocM :=
      match capturePropsObject sc with
      | some content =>
        (scanObjEntries (content.length + 1) content).map fun en =>
          { name := String.mk en.name
            type := .str (match typeMatchCapture (en.body.length + 1) en.body with
              | some w => String.mk w
              | none => "any")
            required := (match requiredMatchCapture (en.body.length + 1) en.body with
              | some cap => cap == "true".toList
              | none => false)
            default := (defaultMatchCapture (en.body.length + 1) en.body).map
              (fun l => jsTrim (String.mk l)) }
      | none => []
    fromDefine ++ fromObject

/-- Global scan of the `defineEmits` entry pattern of vue.ts line 150:
word capture, colon, whitespace, then a bracketed possibly-empty payload. -/
def scanEmitMatches : Nat → List Char → List (List Char × List Char)
  | 0, _ => []
  | _ + 1, [] => []
  | fuel + 1, c :: cs =>
    if wordChar c then
      let name := (c :: cs).takeWhile wordChar
      match (c :: cs).drop name.length with
      | ':' :: r2 =>
        let ws := r2.takeWhile jsWs
        match r2.drop ws.length with
        | '[' :: r4 =>
          let payload := r4.takeWhile (fun x => x != ']')
          if strStarts [']'] (r4.drop payload.length) then
            (name, payload) :: scanEmitMatches fuel ((r4.drop payload.length).drop 1)
          else scanEmitMatches fuel cs
        | _ => scanEmitMatches fuel cs
      | _ => scanEmitMatches fuel cs
    else scanEmitMatches fuel cs

/-- Global scan of the `$emit` call-site pattern of vue.ts line 162:
dollar-emit-paren, a quote, a non-empty word capture, a quote. -/
def scanEmitCalls : Nat → List Char → List (List Char)
  | 0, _ => []
  | _ + 1, [] => []
  | fuel + 1, c :: cs =>
    if strStarts "$emit(".toList (c :: cs) then
      match (c :: cs).drop 6 with
      | q :: r2 =>
        if q == '\'' || q == '"' then
          let w := r2.takeWhile wordChar
          if w.length > 0 then
            match r2.drop w.length with
            | q2 :: r3 =>
              if q2 == '\'' || q2 == '"' then w :: scanEmitCalls fuel r3
              else scanEmitCalls fuel cs
            | [] => scanEmitCalls fuel cs
          else scanEmitCalls fuel cs
        else scanEmitCalls fuel cs
      | [] => scanEmitCalls fuel cs
    else scanEmitCalls fuel cs

/-- The `$emit` call-site loop of vue.ts lines 162–168: a name is appended
only when no event of that name is already present. -/
def emitCallFold (names : List (List Char)) (events : List EventDocM) : List EventDocM :=
  match names with
  | [] => events
  | n :: ns =>
    if events.any (fun e => e.name == String.mk n) then emitCallFold ns events
    else emitCallFold ns (events ++ [{ name := String.mk n }])

/-- Embeds `extractEvents` (vue.ts lines 137–171). -/
def extractEvents (d : SfcDescriptor) : List EventDocM :=
  if d.script.isNone && d.scriptSetup.isNone then []
  else
    let sc := (sfcScriptContent d).toList
    let fromEmits : List EventDocM :=
      match captureAngleBlock "defineEmits<\x7b".toList sc with
      | some block =>
        (scanEmitMatches (block.length + 1) block).map fun m =>
          { name := String.mk m.1
            payload := if m.2.length > 0 then
                some { name := jsTrim (String.mk m.2), type := jsTrim (String.mk m.2) }
              else none }
      | none => []
    emitCallFold (scanEmitCalls (sc.length + 1) sc) fromEmits

/-- Global scan of the slot pattern of vue.ts line 186: `<slot`, mandatory
whitespace, an optional quoted `name` attribute capture, an attribute run,
then the closing angle bracket. -/
def scanSlotMatches : Nat → List Char → List (Option (List Char) × List Char)
  | 0, _ => []
  | _ + 1, [] => []
  | fuel + 1, c :: cs =>
    if strStarts "<slot".toList (c :: cs) then
      let rest := (c :: cs).drop 5
      let ws := rest.takeWhile jsWs
      if ws.length > 0 then
        let r2 := rest.drop ws.length
        let nmr3 : Option (List Char) × List Char :=
          if strStarts "name=".toList r2 then
            match r2.drop 5 with
            | q :: r4 =>
              if q == '\'' || q == '"' then
                let w := r4.takeWhile wordChar
                if w.length > 0 then
                  match r4.drop w.length with
                  | q2 :: r5 =>
                    if q2 == '\'' || q2 == '"' then (some w, r5) else (none, r2)
                  | [] => (none, r2)
                else (none, r2)
              else (none, r2)
            | [] => (none, r2)
          else (none, r2)
        let attrs := nmr3.2.takeWhile (fun x => x != '>')
        match nmr3.2.drop attrs.length with
        | '>' :: r6 => (nmr3.1, attrs) :: scanSlotMatches fuel r6
        | _ => scanSlotMatches fuel cs
      else scanSlotMatches fuel cs
    else scanSlotMatches fuel cs

/-- The slot loop of vue.ts lines 188–201: derive the name (captured word or
`default`) and the scoped flag, and append only when the name is not already
present. -/
def slotFold (ms : List (Option (List Char) × List Char)) (slots : List SlotDocM) :
    List SlotDocM :=
  match ms with
  | [] => slots
  | (nm, attrs) :: rest =>
    let slotName : String := match nm with
      | some w => String.mk w
      | none => "default"
    let scopedFlag := attrs.contains ':' || containsSub attrs "v-bind".toList
    if slots.any (fun s => s.name == slotName) then slotFold rest slots
    else slotFold rest (slots ++ [{ name := slotName, isScoped := scopedFlag }])

/-- Embeds `extractSlots` (vue.ts lines 176–204). -/
def extractSlots (d : SfcDescriptor) : List SlotDocM :=
  match d.template with
  | none => []
  | some tmpl => slotFold (scanSlotMatches (tmpl.toList.length + 1) tmpl.toList) []

/-! ## React parser (src/parsers/react.ts) -/

/-- The filter loop of `deduplicateProps` (react.ts lines 260–267) with its
`seen` set of names. -/
def dedupGo (seen : List String) : List PropDocM → List PropDocM
  | [] => []
  | p :: ps =>
    if seen.contains p.name then dedupGo seen ps
    else p :: dedupGo (p.name :: seen) ps

/-- Embeds `deduplicateProps` (react.ts lines 260–267). -/
def deduplicateProps (props : List PropDocM) : List PropDocM :=
  dedupGo [] props

/-- Specification-side first-occurrence-wins deduplication: keep the head,
drop every later entry with the same name. -/
def firstWinsDedup : List PropDocM → List PropDocM
  | [] => []
  | p :: ps => p :: firstWinsDedup (ps.filter (fun q => !(q.name == p.name)))
termination_by l => l.length
decreasing_by
  simp only [List.length_cons]
  exact Nat.lt_succ_of_le (List.length_filter_le _ _)

/-! ## TypeScript parser (typescript.ts, the annotation extractor)

The TypeScript compiler's syntax tree is the external input: a node carries
its kind, identifier, literal source text, the 1-based line/column of its
first non-trivia token (`getStart` excludes leading comment trivia, and the
source adds one to the 0-based values), its type/parameter/declaration
payload, its attached JSDoc data, and its child nodes in source order. -/

inductive TsKind where
  | functionDecl
  | classDecl
  | interfaceDecl
  | typeAliasDecl
  | variableStatement
  | enumDecl
  | methodDecl
  | propertyDecl
  | propertySignature
  | otherNode
  | sourceFile
deriving DecidableEq, Repr

/-- One parameter of a function-like declaration. -/
structure TsParam where
  name : String
  typeText : Option String := none
  optional : Bool := false
  defaultText : Option String := none
deriving DecidableEq, Repr

/-- One declaration of a variable statement. -/
structure TsVarDecl where
  isIdent : Bool
  name : String
  text : String
  line : Nat
  column : Nat := 1
  typeText : Option String := none
deriving DecidableEq, Repr

inductive TsNode where
  | mk (kind : TsKind) (name : Option String) (text : String)
      (line : Nat) (column : Nat)
      (typeText : Option String)
      (params : List TsParam)
      (varDecls : List TsVarDecl)
      (jsdocPresent : Bool)
      (jsdocDescription : Option String)
      (jsdocTags : List (String × String))
      (children : List TsNode)
deriving Repr

def TsNode.kind : TsNode → TsKind
  | .mk k _ _ _ _ _ _ _ _ _ _ _ => k

def TsNode.name : TsNode → Option String
  | .mk _ n _ _ _ _ _ _ _ _ _ _ => n

def TsNode.text : TsNode → String
  | .mk _ _ t _ _ _ _ _ _ _ _ _ => t

def TsNode.line : TsNode → Nat
  | .mk _ _ _ l _ _ _ _ _ _ _ _ => l

def TsNode.column : TsNode → Nat
  | .mk _ _ _ _ c _ _ _ _ _ _ _ => c

def TsNode.typeText : TsNode → Option String
  | .mk _ _ _ _ _ ty _ _ _ _ _ _ => ty

def TsNode.params : TsNode → List TsParam
  | .mk _ _ _ _ _ _ ps _ _ _ _ _ => ps

def TsNode.varDecls : TsNode → List TsVarDecl
  | .mk _ _ _ _ _ _ _ vs _ _ _ _ => vs

def TsNode.jsdocPresent : TsNode → Bool
  | .mk _ _ _ _ _ _ _ _ j _ _ _ => j

def TsNode.jsdocDescription : TsNode → Option String
  | .mk _ _ _ _ _ _ _ _ _ d _ _ => d

def TsNode.jsdocTags : TsNode → List (String × String)
  | .mk _ _ _ _ _ _ _ _ _ _ tg _ => tg

def TsNode.children : TsNode → List TsNode
  | .mk _ _ _ _ _ _ _ _ _ _ _ cs => cs

/-- JavaScript object update for the `tags` map of `getJSDocComment`
(typescript.ts lines 582–593): a repeated tag collapses into a list. -/
def tagAdd (m : List (String × TagVal)) (k v : String) : List (String × TagVal) :=
  if m.any (fun e => e.1 == k) then
    m.map (fun e =>
      if e.1 == k then
        (k, match e.2 with
          | .one old => .many [old, v]
          | .many l => .many (l ++ [v]))
      else e)
  else m ++ [(k, .one v)]

/-- One iteration of the `jsDocTags.forEach` loop of `getJSDocComment`. -/
def jsTagStep (acc : List String × List (String × TagVal)) (p : String × String) :
    List String × List (String × TagVal) :=
  if p.1 == "example" then (acc.1 ++ [p.2], acc.2)
  else (acc.1, tagAdd acc.2 p.1 p.2)

/-- Embeds `getJSDocComment` (typescript.ts lines 551–597): `none` when the
node has no attached JSDoc comments, otherwise the description, the example
texts and the tag map. -/
def getJSDocComment (n : TsNode) :
    Option (Option String × List String × List (String × TagVal)) :=
  if n.jsdocPresent then
    let r := n.jsdocTags.foldl jsTagStep ([], [])
    some (n.jsdocDescription, r.1, r.2)
  else none

/-- Embeds `parseType` (typescript.ts lines 539–546). -/
def tsParseType (t : String) : TypeDocM :=
  { name := t, type := t, isGeneric := containsSub t.toList "<".toList }

/-- Embeds `parseParameter` (typescript.ts lines 519–534). -/
def tsParseParameter (p : TsParam) : ParameterDocM :=
  { name := p.name
    type := match p.typeText with
      | some t => tsParseType t
      | none => { name := "any", type := "any" }
    optional := p.optional
    defaultValue := p.defaultText }

/-- Embeds `getSourceLocation` (typescript.ts lines 602–609). -/
def tsSourceLocation (fname : String) (n : TsNode) : SourceLocM :=
  { file := fname, line := n.line, column := some n.column }

/-- Embeds `parseFunctionDeclaration` (typescript.ts lines 337–357). -/
def parseFunctionDeclaration (fname : String) (n : TsNode) : ApiDocNodeM :=
  { name := n.name.getD ""
    kind := .kFunction
    description := match getJSDocComment n with
      | some j => j.1
      | none => none
    signature := some n.text
    parameters := some (n.params.map tsParseParameter)
    returns := some (match n.typeText with
      | some t => tsParseType t
      | none => { name := "void", type := "void" })
    examples := (getJSDocComment n).map (fun j => j.2.1)
    tags := (getJSDocComment n).map (fun j => j.2.2)
    source := some (tsSourceLocation fname n) }

/-- The method branch of the member loop of `parseClassDeclaration`
(typescript.ts lines 371–375): `parseFunctionDeclaration` on the member,
its name taken from the member's name token. -/
def parseMethodMember (fname : String) (m : TsNode) : ApiChildM :=
  { name := m.name.getD ""
    kind := .kFunction
    description := match getJSDocComment m with
      | some j => j.1
      | none => none
    signature := some m.text
    parameters := some (m.params.map tsParseParameter)
    returns := some (match m.typeText with
      | some t => tsParseType t
      | none => { name := "void", type := "void" })
    examples := (getJSDocComment m).map (fun j => j.2.1)
    tags := (getJSDocComment m).map (fun j => j.2.2)
    source := some (tsSourceLocation fname m) }

/-- The property branch of the member loops of `parseClassDeclaration` and
`parseInterfaceDeclaration` (typescript.ts lines 375–386 and 412–424). -/
def parsePropertyMember (fname : String) (m : TsNode) : ApiChildM :=
  { name := m.name.getD ""
    kind := .kVariable
    description := match getJSDocComment m with
      | some j => j.1
      | none => none
    returns := some (match m.typeText with
      | some t => tsParseType t
      | none => { name := "any", type := "any" })
    source := some (tsSourceLocation fname m) }

/-- Embeds `parseClassDeclaration` (typescript.ts lines 362–399): the member
loop branches on method and property members and skips everything else. -/
def parseClassDeclaration (fname : String) (n : TsNode) : ApiDocNodeM :=
  let children := n.children.filterMap fun m =>
    if m.kind == .methodDecl && m.name.isSome then some (parseMethodMember fname m)
    else if m.kind == .propertyDecl && m.name.isSome then
      some (parsePropertyMember fname m)
    else none
  { name := n.name.getD ""
    kind := .kClass
    description := match getJSDocComment n with
      | some j => j.1
      | none => none
    signature := some ("class " ++ n.name.getD "")
    examples := (getJSDocComment n).map (fun j => j.2.1)
    tags := (getJSDocComment n).map (fun j => j.2.2)
    source := some (tsSourceLocation fname n)
    children := some children }

/-- Embeds `parseInterfaceDeclaration` (typescript.ts lines 404–437). -/
def parseInterfaceDeclaration (fname : String) (n : TsNode) : ApiDocNodeM :=
  let children := n.children.filterMap fun m =>
    if m.kind == .propertySignature && m.name.isSome then
      some (parsePropertyMember fname m)
    else none
  { name := n.name.getD ""
    kind := .kInterface
    description := match getJSDocComment n with
      | some j => j.1
      | none => none
    signature := some ("interface " ++ n.name.getD "")
    examples := (getJSDocComment n).map (fun j => j.2.1)
    tags := (getJSDocComment n).map (fun j => j.2.2)
    source := some (tsSourceLocation fname n)
    children := some children }

/-- Embeds `parseTypeAliasDeclaration` (typescript.ts lines 442–460). -/
def parseTypeAliasDeclaration (fname : String) (n : TsNode) : ApiDocNodeM :=
  { name := n.name.getD ""
    kind := .kType
    description := match getJSDocComment n with
      | some j => j.1
      | none => none
    signature := some n.text
    returns := some (tsParseType (n.typeText.getD "any"))
    examples := (getJSDocComment n).map (fun j => j.2.1)
    tags := (getJSDocComment n).map (fun j => j.2.2)
    source := some (tsSourceLocation fname n) }

/-- Embeds `parseVariableStatement` (typescript.ts lines 465–493): one node
per identifier declaration; the JSDoc comes from the statement, the type,
text and position from the declaration. -/
def parseVariableStatement (fname : String) (n : TsNode) : List ApiDocNodeM :=
  n.varDecls.filterMap fun d =>
    if d.isIdent then
      some { name := d.name
             kind := .kVariable
             description := match getJSDocComment n with
               | some j => j.1
               | none => none
             signature := some d.text
             returns := some (match d.typeText with
               | some t => tsParseType t
               | none => { name := "any", type := "any" })
             examples := (getJSDocComment n).map (fun j => j.2.1)
             tags := (getJSDocComment n).map (fun j => j.2.2)
             source := some { file := fname, line := d.line, column := some d.column } }
    else none

/-- Embeds `parseEnumDeclaration` (typescript.ts lines 498–514). -/
def parseEnumDeclaration (fname : String) (n : TsNode) : ApiDocNodeM :=
  { name := n.name.getD ""
    kind := .kEnum
    description := match getJSDocComment n with
      | some j => j.1
      | none => none
    signature := some ("enum " ++ n.name.getD "")
    examples := (getJSDocComment n).map (fun j => j.2.1)
    tags := (getJSDocComment n).map (fun j => j.2.2)
    source := some (tsSourceLocation fname n) }

/-- The if-else chain of `visit` (typescript.ts lines 299–327) on one node:
the nodes pushed before the recursive `forEachChild`. -/
def visitMatched (fname : String) (n : TsNode) : List ApiDocNodeM :=
  match n.kind with
  | .functionDecl => if n.name.isSome then [parseFunctionDeclaration fname n] else []
  | .classDecl => if n.name.isSome then [parseClassDeclaration fname n] else []
  | .interfaceDecl => [parseInterfaceDeclaration fname n]
  | .typeAliasDecl => [parseTypeAliasDeclaration fname n]
  | .variableStatement => parseVariableStatement fname n
  | .enumDecl => [parseEnumDeclaration fname n]
  | _ => []

/-- Total size of a forest, the termination measure of the traversal. -/
def tsSize : List TsNode → Nat
  | [] => 0
  | n :: rest => 1 + tsSize n.children + tsSize rest
termination_by l => sizeOf l
decreasing_by
  · cases n
    simp [TsNode.children]
    try omega
  · simp
    try omega

/-- Embeds the recursive `visit` walk (typescript.ts lines 299–329) over a
worklist: each node contributes its matched nodes, then its children
pre-order, then its right siblings. -/
def visitList (fname : String) : List TsNode → List ApiDocNodeM
  | [] => []
  | n :: rest =>
    (visitMatched fname n ++ visitList fname n.children) ++ visitList fname rest
termination_by l => tsSize l
decreasing_by
  · simp [tsSize]
    try omega
  · simp [tsSize]
    try omega

/-- Embeds `isExported` (typescript.ts lines 614–617): the simplification
that treats every node as exported. -/
def isExportedNode (_ : ApiDocNodeM) : Bool :=
  true

/-- Embeds `parseTypeScriptFile` (typescript.ts lines 282–332): `visit`
starting at the source-file node, then the (vacuous) exported filter. -/
def parseTypeScriptFile (fname : String) (root : TsNode) : List ApiDocNodeM :=
  (visitList fname [root]).filter isExportedNode

/-- The six declaration kinds the visitor matches. -/
def recognizedKind (k : TsKind) : Bool :=
  k == .functionDecl || k == .classDecl || k == .interfaceDecl ||
  k == .typeAliasDecl || k == .variableStatement || k == .enumDecl

/-- No node of the forest has a recognized kind. -/
def noRecognizedIn : List TsNode → Bool
  | [] => true
  | n :: rest =>
    !recognizedKind n.kind && noRecognizedIn n.children && noRecognizedIn rest
termination_by l => tsSize l
decreasing_by
  · simp [tsSize]
    try omega
  · simp [tsSize]
    try omega

/-- A source-file root with the given top-level nodes. -/
def mkSourceFile (decls : List TsNode) : TsNode :=
  TsNode.mk .sourceFile none "" 1 1 none [] [] false none [] decls

/-- The 1-based first-token lines of the nodes a declaration contributes. -/
def declLines (d : TsNode) : List Nat :=
  match d.kind with
  | .functionDecl => if d.name.isSome then [d.line] else []
  | .classDecl => if d.name.isSome then [d.line] else []
  | .interfaceDecl => [d.line]
  | .typeAliasDecl => [d.line]
  | .variableStatement => (d.varDecls.filter (fun v => v.isIdent)).map (fun v => v.line)
  | .enumDecl => [d.line]
  | _ => []

/-! ### Event trace of one `generate` run -/

inductive FileCat where
  | markdown
  | api
  | vue
  | react
deriving DecidableEq, Repr

/-- Observable events of a `DocGenerator.generate` run, in invocation
order. -/
inductive GenEvent where
  | fileProcessed (cat : FileCat) (file : String)
  | fileFailed (cat : FileCat) (file : String)
  | hookBeforeGenerate (plugin : String)
  | hookAfterGenerate (plugin : String)
deriving DecidableEq, Repr

def mdEvents (env : GenEnv) (plugins : List DocsPlugin) : List String → List GenEvent
  | [] => []
  | f :: fs =>
    (match processMdFile env plugins f with
      | .ok _ => GenEvent.fileProcessed .markdown f
      | .error _ => GenEvent.fileFailed .markdown f) :: mdEvents env plugins fs

def apiEvents (env : GenEnv) : List String → List GenEvent
  | [] => []
  | f :: fs =>
    (match processApiFile env f with
      | .ok _ => GenEvent.fileProcessed .api f
      | .error _ => GenEvent.fileFailed .api f) :: apiEvents env fs

def vueEvents (env : GenEnv) : List String → List GenEvent
  | [] => []
  | f :: fs =>
    (match processVueFile env f with
      | .ok _ => GenEvent.fileProcessed .vue f
      | .error _ => GenEvent.fileFailed .vue f) :: vueEvents env fs

def reactEvents (env : GenEnv) : List String → List GenEvent
  | [] => []
  | f :: fs =>
    (match processReactFile env f with
      | .ok _ => GenEvent.fileProcessed .react f
      | .error _ => GenEvent.fileFailed .react f) :: reactEvents env fs

/-- Embeds the plugin loop of `PluginManager.beforeGenerate`
(plugin-manager.ts lines 91–98): one invocation per plugin that has the
hook, in registration order. -/
def pmBeforeGenerateEvents (plugins : List DocsPlugin) : List GenEvent :=
  plugins.filterMap fun p =>
    if p.hasBeforeGenerate then some (.hookBeforeGenerate p.name) else none

/-- Embeds the plugin loop of `PluginManager.afterGenerate`
(plugin-manager.ts lines 103–110). -/
def pmAfterGenerateEvents (plugins : List DocsPlugin) : List GenEvent :=
  plugins.filterMap fun p =>
    if p.hasAfterGenerate then some (.hookAfterGenerate p.name) else none

/-- The event trace of `DocGenerator.generate` in source order
(doc-generator.ts lines 36–55): markdown files, API files, Vue then React
component files, then `beforeGenerate`, then `afterGenerate`. -/
def generateTrace (env : GenEnv) (plugins : List DocsPlugin) : List GenEvent :=
  mdEvents env plugins env.mdFiles ++
  apiEvents env env.apiFiles ++
  vueEvents env env.vueFiles ++
  reactEvents env env.reactFiles ++
  pmBeforeGenerateEvents plugins ++
  pmAfterGenerateEvents plugins

end LDocs

namespace LDocs

/-- C2 counterexample: on the heading text `a.b` the anchor path keeps the
dot (it is stripped by neither step and `encodeURIComponent` leaves `.`
unescaped) while `extractHeaders`'s slugifier deletes it, so the two slug
computations disagree. -/
theorem C2_counterexample :
    anchorSlugify "a.b" = "a.b" ∧ slugify "a.b" = "ab" ∧
      anchorSlugify "a.b" ≠ slugify "a.b" := by
  refine ⟨by decide, by decide, by decide⟩

/-- C2 (amended): each slug computation is a function of the heading text
alone, and the two agree exactly on texts whose normalized form survives the
strip step untouched; the anchor-plugin slug omits the
strip-characters-outside-word/hyphen/CJK step that `extractHeaders`'s
slugifier applies. -/
theorem C2_slug_agreement (s : String)
    (h : stripNonWord (slugNorm s) = slugNorm s) :
    anchorSlugify s = slugify s := by
  unfold anchorSlugify slugify
  rw [h]

/-- Witness for `C2_slug_agreement` at the heading text `Hello World`. -/
theorem C2_slug_agreement_witness :
    stripNonWord (slugNorm "Hello World") = slugNorm "Hello World" ∧
      anchorSlugify "Hello World" = slugify "Hello World" :=
  ⟨by decide, C2_slug_agreement "Hello World" (by decide)⟩

/-- C4 counterexample: a prose file with no front matter whose first line is
the heading `# Welcome` gets the humanized file name `Getting Started` as its
title, not the heading text — the extracted heading is never consulted. -/
theorem C4_counterexample :
    mdDocTitle "# Welcome\n\nSome body text" "getting-started.md" = "Getting Started" ∧
      mdDocTitle "# Welcome\n\nSome body text" "getting-started.md" ≠ "Welcome" :=
  ⟨by decide, by decide⟩

/-- Helper: a split by a character none of the input contains is the whole
input. -/
theorem splitOnCharAux_no_sep (sep : Char) : ∀ (l acc : List Char),
    (∀ c ∈ l, c ≠ sep) →
    splitOnCharAux sep acc l = [String.mk (acc.reverse ++ l)] := by
  intro l
  induction l with
  | nil =>
    intro acc _
    simp [splitOnCharAux]
  | cons c cs ih =>
    intro acc h
    have hc : (c == sep) = false := beq_eq_false_iff_ne.mpr (h c (by simp))
    simp only [splitOnCharAux, hc, Bool.false_eq_true, if_false]
    rw [ih (c :: acc) (fun x hx => h x (by simp [hx]))]
    exact congrArg (fun z => [String.mk z]) (by simp)

/-- Helper: the split never returns an empty list. -/
theorem splitOnCharAux_ne_nil (sep : Char) : ∀ (l acc : List Char),
    splitOnCharAux sep acc l ≠ [] := by
  intro l
  induction l with
  | nil =>
    intro acc
    simp [splitOnCharAux]
  | cons c cs ih =>
    intro acc
    by_cases hc : (c == sep) = true
    · simp [splitOnCharAux, hc]
    · simp only [splitOnCharAux, hc, Bool.false_eq_true, if_false]
      exact ih (c :: acc)

/-- Helper: a separator-free prefix becomes the first field of the split. -/
theorem splitOnCharAux_upToSep (sep : Char) : ∀ (pre rest acc : List Char),
    (∀ c ∈ pre, c ≠ sep) →
    splitOnCharAux sep acc (pre ++ sep :: rest) =
      String.mk (acc.reverse ++ pre) :: splitOnCharAux sep [] rest := by
  intro pre
  induction pre with
  | nil =>
    intro rest acc _
    simp [splitOnCharAux]
  | cons c cs ih =>
    intro rest acc hp
    have hc : (c == sep) = false := beq_eq_false_iff_ne.mpr (hp c (by simp))
    simp only [List.cons_append, splitOnCharAux, hc, Bool.false_eq_true, if_false]
    show splitOnCharAux sep (c :: acc) (cs ++ sep :: rest) = _
    rw [ih rest (c :: acc) (fun x hx => hp x (by simp [hx]))]
    exact congrArg (fun z => String.mk z :: splitOnCharAux sep [] rest) (by simp)

/-- Helper: joining the split with its separator restores the input
(`split`/`join` round trip). -/
theorem joinWith_splitOnCharAux (sep : Char) : ∀ (l acc : List Char),
    joinWith (String.mk [sep]) (splitOnCharAux sep acc l) =
      String.mk (acc.reverse ++ l) := by
  intro l
  induction l with
  | nil =>
    intro acc
    simp [splitOnCharAux, joinWith]
  | cons c cs ih =>
    intro acc
    by_cases hc : (c == sep) = true
    · have hce : c = sep := by simpa using hc
      subst hce
      obtain ⟨h, t, hht⟩ : ∃ h t, splitOnCharAux c ([] : List Char) cs = h :: t := by
        cases hsp : splitOnCharAux c [] cs with
        | nil => exact absurd hsp (splitOnCharAux_ne_nil c cs [])
        | cons h t => exact ⟨h, t, rfl⟩
      rw [show splitOnCharAux c acc (c :: cs) =
          String.mk acc.reverse :: splitOnCharAux c [] cs from by
        simp [splitOnCharAux]]
      rw [hht]
      simp only [joinWith]
      rw [← hht, ih []]
      show String.mk ((acc.reverse ++ [c]) ++ (List.reverse [] ++ cs)) = _
      exact congrArg String.mk (by simp)
    · simp only [splitOnCharAux, hc, Bool.false_eq_true, if_false]
      rw [ih (c :: acc)]
      exact congrArg String.mk (by simp)

/-- Helper: trimming ignores one leading space. -/
theorem jsTrim_cons_space (l : List Char) :
    jsTrim (String.mk (' ' :: l)) = jsTrim (String.mk l) := by
  have hws : jsWs ' ' = true := rfl
  simp [jsTrim, trimList, List.dropWhile, hws]

/-- Helper: the lazy front-matter capture stops at the first
newline-dash-dash-dash, so a newline-free capture body is taken whole. -/
theorem fmCapAux_no_newline : ∀ (pre rest : List Char),
    pre ≠ [] → (∀ c ∈ pre, c ≠ '\n') →
    fmCapAux (pre ++ '\n' :: '-' :: '-' :: '-' :: rest) = some pre := by
  intro pre
  induction pre with
  | nil =>
    intro rest h _
    exact absurd rfl h
  | cons c cs ih =>
    intro rest _ hnl
    cases cs with
    | nil => simp [fmCapAux, strStarts]
    | cons d ds =>
      have hne2 : ('\n' == d) = false :=
        beq_eq_false_iff_ne.mpr (Ne.symm (hnl d (by simp)))
      have hcheck : strStarts ['\n', '-', '-', '-']
          ((d :: ds) ++ '\n' :: '-' :: '-' :: '-' :: rest) = false := by
        simp [strStarts, hne2]
      show (if strStarts ['\n', '-', '-', '-']
            ((d :: ds) ++ '\n' :: '-' :: '-' :: '-' :: rest) = true then
          some [c]
        else
          match fmCapAux ((d :: ds) ++ '\n' :: '-' :: '-' :: '-' :: rest) with
          | none => none
          | some t => some (c :: t)) = some (c :: d :: ds)
      rw [hcheck]
      rw [if_neg (by simp)]
      rw [ih rest (by simp) (fun x hx => hnl x (by simp [hx]))]

/-- Helper: a file beginning with a dash-fenced block whose single line is
`title: X` (with `X` newline-free) captures exactly that line, for every
body. -/
theorem frontmatterCapture_title (X body : String)
    (hnl : ∀ c ∈ X.toList, c ≠ '\n') :
    frontmatterCapture ("---\ntitle: " ++ X ++ "\n---" ++ body) =
      some ("title: " ++ X) := by
  have hdata : ("---\ntitle: " ++ X ++ "\n---" ++ body).toList =
      '-' :: '-' :: '-' :: '\n' ::
        ("title: ".toList ++ (X.toList ++ '\n' :: '-' :: '-' :: '-' :: body.toList)) := by
    show ((("---\ntitle: " ++ X) ++ "\n---") ++ body).data = _
    rw [String.data_append, String.data_append, String.data_append, List.append_assoc,
      List.append_assoc]
    rfl
  have hss : strStarts ['-', '-', '-', '\n']
      ('-' :: '-' :: '-' :: '\n' ::
        ("title: ".toList ++ (X.toList ++ '\n' :: '-' :: '-' :: '-' :: body.toList))) =
      true := by
    simp [strStarts]
  unfold frontmatterCapture
  rw [hdata]
  dsimp only
  rw [hss, if_pos rfl]
  show (fmCapAux ("title: ".toList ++ (X.toList ++ '\n' :: '-' :: '-' :: '-' :: body.toList))).map
      String.mk = some ("title: " ++ X)
  rw [← List.append_assoc]
  rw [fmCapAux_no_newline ("title: ".toList ++ X.toList) body.toList (by simp)
    (fun c hc => by
      rcases List.mem_append.mp hc with h | h
      · exact (by decide : ∀ c ∈ "title: ".toList, c ≠ '\n') c h
      · exact hnl c h)]
  rfl

/-- Helper: the front matter of such a file parses to the trimmed,
quote-stripped title value and an empty metadata bag. -/
theorem extractFrontmatter_title (X body : String)
    (hnl : ∀ c ∈ X.toList, c ≠ '\n') :
    extractFrontmatter ("---\ntitle: " ++ X ++ "\n---" ++ body) =
      (stripQuoteEnds (jsTrim X), some []) := by
  have h1 : splitOnChar '\n' ("title: " ++ X) = ["title: " ++ X] := by
    have hfree : ∀ c ∈ ("title: " ++ X).toList, c ≠ '\n' := by
      intro c hc
      rw [show ("title: " ++ X).toList = "title: ".toList ++ X.toList from
        String.data_append _ _] at hc
      rcases List.mem_append.mp hc with h | h
      · exact (by decide : ∀ c ∈ "title: ".toList, c ≠ '\n') c h
      · exact hnl c h
    unfold splitOnChar
    rw [splitOnCharAux_no_sep '\n' _ [] hfree]
    rfl
  have h2 : splitOnChar ':' ("title: " ++ X) =
      "title" :: splitOnCharAux ':' [] (' ' :: X.toList) := by
    unfold splitOnChar
    rw [show ("title: " ++ X).toList = "title".toList ++ ':' :: ' ' :: X.toList from rfl]
    rw [splitOnCharAux_upToSep ':' "title".toList (' ' :: X.toList) [] (by decide)]
    rfl
  have h3 : joinWith ":" (splitOnCharAux ':' [] (' ' :: X.toList)) =
      String.mk (' ' :: X.toList) := by
    have hj := joinWith_splitOnCharAux ':' (' ' :: X.toList) []
    simpa using hj
  have h4 : fmLineStep ("", []) ("title: " ++ X) = (stripQuoteEnds (jsTrim X), []) := by
    unfold fmLineStep
    rw [h2]
    dsimp only
    rw [if_pos (by
      simp only [Bool.and_eq_true, decide_eq_true_eq]
      exact ⟨by decide,
        List.length_pos.mpr (splitOnCharAux_ne_nil ':' (' ' :: X.toList) [])⟩)]
    rw [h3, show String.mk (' ' :: X.toList) = String.mk (' ' :: X.data) from rfl]
    rw [show jsTrim (String.mk (' ' :: X.data)) = jsTrim (String.mk X.data) from
      jsTrim_cons_space X.data]
    rw [show String.mk X.data = X from rfl]
    rw [if_pos (by decide : (jsTrim "title" == "title") = true)]
  unfold extractFrontmatter
  rw [frontmatterCapture_title X body hnl]
  dsimp only
  rw [h1]
  dsimp only [List.foldl]
  rw [h4]

/-- C4 (amended): the Document Node title is the front-matter `title` value
(trimmed and quote-stripped) whenever it is non-empty; in every other case —
a `title:` line whose value trims to nothing, a front-matter block whose
parsed title is empty (no `title` key), or no front-matter block at all —
the title is the humanized file name, regardless of the body, so the first
extracted heading is never consulted. -/
theorem C4_title_priority :
    (∀ (X body p : String), (∀ c ∈ X.toList, c ≠ '\n') →
        mdDocTitle ("---\ntitle: " ++ X ++ "\n---" ++ body) p =
          if stripQuoteEnds (jsTrim X) = "" then getTitleFromPath p
          else stripQuoteEnds (jsTrim X)) ∧
    (∀ (content fm p : String),
        frontmatterCapture content = some fm →
        ((splitOnChar '\n' fm).foldl fmLineStep ("", [])).1 = "" →
        mdDocTitle content p = getTitleFromPath p) ∧
    (∀ (content p : String), frontmatterCapture content = none →
        mdDocTitle content p = getTitleFromPath p) := by
  refine ⟨?_, ?_, ?_⟩
  · intro X body p hnl
    unfold mdDocTitle
    rw [extractFrontmatter_title X body hnl]
    by_cases h : stripQuoteEnds (jsTrim X) = "" <;> simp [h]
  · intro content fm p h1 h2
    simp [mdDocTitle, extractFrontmatter, h1, h2]
  · intro content p h
    simp [mdDocTitle, extractFrontmatter, h]

/-- A minimal resolved configuration for concrete build runs. -/
def sampleConfig : DocsConfigM :=
  { title := "Site", description := "Docs site" }

/-- First of two Document Nodes resolving to the same output path. -/
def collisionDocA : DocNode :=
  { path := "guide.md", title := "A", content := "<p>first page</p>", type := .markdown }

/-- Second of two Document Nodes resolving to the same output path. -/
def collisionDocB : DocNode :=
  { path := "guide.md", title := "B", content := "<p>second page</p>", type := .markdown }

set_option maxRecDepth 8192 in
/-- C1: evaluation of `generateHtmlFiles` at a Document Node set in which two
distinct nodes resolve to the same output path `dist/guide.html`.  The build
completes normally with a single output file holding only the second node's
page: the first node's page is silently overwritten and no error of any kind
is raised, contradicting the required fatal `OutputCollisionError`. -/
theorem C1_collision_overwrites :
    generateHtmlFiles sampleConfig [collisionDocA, collisionDocB] [] =
        [("dist/guide.html", renderPage sampleConfig collisionDocB)] ∧
      renderPage sampleConfig collisionDocA ≠ renderPage sampleConfig collisionDocB := by
  exact ⟨by decide, by decide⟩

/-- Helper: the config loop equals the specification fold. -/
theorem pmConfig_eq_fold (plugins : List DocsPlugin) (c : DocsConfigM) :
    pmConfig plugins c = configFoldSpec plugins c := by
  induction plugins generalizing c with
  | nil => rfl
  | cons p ps ih =>
    show (match p.config with
      | none => pmConfig ps c
      | some h => match h c with
        | none => pmConfig ps c
        | some modified => pmConfig ps modified) = configFoldSpec (p :: ps) c
    cases hp : p.config with
    | none => simp [configFoldSpec, List.foldl, configHookStep, hp, ih]
    | some h =>
      cases hh : h c with
      | none => simp [configFoldSpec, List.foldl, configHookStep, hp, hh, ih]
      | some m => simp [configFoldSpec, List.foldl, configHookStep, hp, hh, ih]

/-- Helper: the markdown-transform loop equals the specification fold. -/
theorem pmTransform_eq_fold (plugins : List DocsPlugin) (content file : String) :
    pmTransformMarkdown plugins content file = transformFoldSpec plugins content file := by
  induction plugins generalizing content with
  | nil => rfl
  | cons p ps ih =>
    show (match p.transformMarkdown with
      | none => pmTransformMarkdown ps content file
      | some h => pmTransformMarkdown ps (h content file) file) =
        transformFoldSpec (p :: ps) content file
    cases hp : p.transformMarkdown with
    | none => simp [transformFoldSpec, List.foldl, transformHookStep, hp, ih]
    | some h => simp [transformFoldSpec, List.foldl, transformHookStep, hp, ih]

/-- Helper: the config chain processes a concatenation of registration lists
sequentially. -/
theorem pmConfig_append (ps qs : List DocsPlugin) (c : DocsConfigM) :
    pmConfig (ps ++ qs) c = pmConfig qs (pmConfig ps c) := by
  rw [pmConfig_eq_fold, pmConfig_eq_fold, pmConfig_eq_fold]
  simp [configFoldSpec, List.foldl_append]

/-- Helper: the transform chain processes a concatenation of registration
lists sequentially. -/
theorem pmTransform_append (ps qs : List DocsPlugin) (content file : String) :
    pmTransformMarkdown (ps ++ qs) content file =
      pmTransformMarkdown qs (pmTransformMarkdown ps content file) file := by
  rw [pmTransform_eq_fold, pmTransform_eq_fold, pmTransform_eq_fold]
  simp [transformFoldSpec, List.foldl_append]

/-- C7: `PluginManager.config` and `PluginManager.transformMarkdown` are the
left-to-right folds of the plugins' hooks in registration order (hence
concatenations of registrations chain sequentially); a plugin lacking the
hook is a no-op, and a config hook returning nothing leaves the running
configuration unchanged. -/
theorem C7_hook_chains :
    (∀ (plugins : List DocsPlugin) (c : DocsConfigM),
        pmConfig plugins c = configFoldSpec plugins c) ∧
    (∀ (plugins : List DocsPlugin) (content file : String),
        pmTransformMarkdown plugins content file = transformFoldSpec plugins content file) ∧
    (∀ (ps qs : List DocsPlugin) (c : DocsConfigM),
        pmConfig (ps ++ qs) c = pmConfig qs (pmConfig ps c)) ∧
    (∀ (ps qs : List DocsPlugin) (content file : String),
        pmTransformMarkdown (ps ++ qs) content file =
          pmTransformMarkdown qs (pmTransformMarkdown ps content file) file) ∧
    (∀ (nm : String) (bb ab : Bool) (ps : List DocsPlugin) (c : DocsConfigM)
        (content file : String),
        pmConfig ({ name := nm, hasBeforeGenerate := bb, hasAfterGenerate := ab } :: ps) c =
            pmConfig ps c ∧
          pmTransformMarkdown
              ({ name := nm, hasBeforeGenerate := bb, hasAfterGenerate := ab } :: ps)
              content file =
            pmTransformMarkdown ps content file) ∧
    (∀ (nm : String) (ps : List DocsPlugin) (c : DocsConfigM),
        pmConfig ({ name := nm, config := some (fun _ => none) } :: ps) c = pmConfig ps c) :=
  ⟨pmConfig_eq_fold, pmTransform_eq_fold, pmConfig_append, pmTransform_append,
    fun _ _ _ _ _ _ _ => ⟨rfl, rfl⟩, fun _ _ _ => rfl⟩

/-- A plugin registering both generation observers and nothing else. -/
def tracePlugin : DocsPlugin :=
  { name := "observer", hasBeforeGenerate := true, hasAfterGenerate := true }

/-- An environment with a single, readable markdown file. -/
def traceEnv : GenEnv :=
  { mdFiles := ["intro.md"]
    readFile := fun f => if f == "intro.md" then .ok "hello" else .error "ENOENT" }

/-- C3: evaluation of the `DocGenerator.generate` event trace on a run with
one markdown file and one plugin registering both generation hooks.  The
file is read, transformed and rendered *first*; `beforeGenerate` fires only
afterwards (immediately before `afterGenerate`), so the hook does not
precede any extraction or rendering as claimed.  The first trace event is
the file's processing, not the hook. -/
theorem C3_beforeGenerate_fires_after_batch :
    generateTrace traceEnv [tracePlugin] =
        [GenEvent.fileProcessed .markdown "intro.md",
          GenEvent.hookBeforeGenerate "observer",
          GenEvent.hookAfterGenerate "observer"] ∧
      (generateTrace traceEnv [tracePlugin]).head? =
        some (GenEvent.fileProcessed .markdown "intro.md") := by
  exact ⟨by decide, by decide⟩

/-- C6: if reading one markdown file throws and parsing one API file throws,
the corresponding generation loops skip exactly that file: the Document
Nodes produced are those of the same run with the failing file absent, for
every surrounding file list, environment and plugin list. -/
theorem C6_single_failure_skipped (env : GenEnv) (plugins : List DocsPlugin)
    (xs ys xs2 ys2 : List String) (f g e e2 : String)
    (hf : env.readFile f = .error e) (hg : env.parseTs g = .error e2) :
    mdDocsLoop env plugins (xs ++ f :: ys) = mdDocsLoop env plugins (xs ++ ys) ∧
      apiDocsLoop env (xs2 ++ g :: ys2) = apiDocsLoop env (xs2 ++ ys2) := by
  constructor
  · induction xs with
    | nil => simp [mdDocsLoop, processMdFile, hf]
    | cons x xs ih =>
      show (match processMdFile env plugins x with
        | .ok d => d :: mdDocsLoop env plugins (xs ++ f :: ys)
        | .error _ => mdDocsLoop env plugins (xs ++ f :: ys)) = _
      cases hx : processMdFile env plugins x <;> simp [mdDocsLoop, hx, ih]
  · induction xs2 with
    | nil => simp [apiDocsLoop, processApiFile, hg]
    | cons x xs ih =>
      show (match processApiFile env x with
        | .ok (some d) => d :: apiDocsLoop env (xs ++ g :: ys2)
        | .ok none => apiDocsLoop env (xs ++ g :: ys2)
        | .error _ => apiDocsLoop env (xs ++ g :: ys2)) = _
      cases hx : processApiFile env x with
      | ok o => cases o <;> simp [apiDocsLoop, hx, ih]
      | error _ => simp [apiDocsLoop, hx, ih]

/-- An environment in which one markdown file and one API file throw. -/
def failEnv : GenEnv :=
  { mdFiles := ["good.md", "bad.md"]
    readFile := fun f => if f == "good.md" then .ok "# Good" else .error "EACCES"
    apiFiles := ["broken.ts"]
    parseTs := fun _ => .error "parse error" }

/-- Witness for `C6_single_failure_skipped`: concrete run in which
`bad.md` fails to read and `broken.ts` fails to parse, and both loops
produce exactly the nodes of the runs without those files. -/
theorem C6_single_failure_skipped_witness :
    failEnv.readFile "bad.md" = .error "EACCES" ∧
      failEnv.parseTs "broken.ts" = .error "parse error" ∧
      (mdDocsLoop failEnv [] (["good.md"] ++ "bad.md" :: []) =
          mdDocsLoop failEnv [] (["good.md"] ++ []) ∧
        apiDocsLoop failEnv ([] ++ "broken.ts" :: []) = apiDocsLoop failEnv ([] ++ [])) :=
  ⟨rfl, rfl,
    C6_single_failure_skipped failEnv [] ["good.md"] [] [] [] "bad.md" "broken.ts"
      "EACCES" "parse error" rfl rfl⟩

/-- A string that embeds `mid` verbatim as a contiguous segment. -/
def containsSeg (s mid : String) : Prop :=
  ∃ p q, s = p ++ mid ++ q

theorem containsSeg_self (mid : String) : containsSeg mid mid :=
  ⟨"", "", by rw [String.empty_append, String.append_empty]⟩

theorem containsSeg_appendL (t : String) {s mid : String} (h : containsSeg s mid) :
    containsSeg (t ++ s) mid := by
  obtain ⟨p, q, rfl⟩ := h
  exact ⟨t ++ p, q, by simp [String.append_assoc]⟩

theorem containsSeg_appendR (t : String) {s mid : String} (h : containsSeg s mid) :
    containsSeg (s ++ t) mid := by
  obtain ⟨p, q, rfl⟩ := h
  exact ⟨p, q ++ t, by simp [String.append_assoc]⟩

/-- Helper: a fold that appends `g x` per element shifts over its initial
accumulator. -/
theorem foldl_concat_shift {α : Type} (g : α → String) (acc : String) (l : List α) :
    l.foldl (fun a x => a ++ g x) acc = acc ++ l.foldl (fun a x => a ++ g x) "" := by
  induction l generalizing acc with
  | nil => rw [List.foldl_nil, List.foldl_nil, String.append_empty]
  | cons x xs ih =>
    rw [List.foldl_cons, List.foldl_cons, String.empty_append, ih (acc ++ g x), ih (g x),
      String.append_assoc]

/-- Helper: each element's contribution appears verbatim in the fold. -/
theorem foldl_concat_mem {α : Type} (g : α → String) {l : List α} {e : α} (he : e ∈ l) :
    containsSeg (l.foldl (fun a x => a ++ g x) "") (g e) := by
  obtain ⟨l1, l2, rfl⟩ := List.append_of_mem he
  rw [List.foldl_append, List.foldl_cons, foldl_concat_shift g (List.foldl _ "" l1 ++ g e) l2]
  exact ⟨_, _, rfl⟩

/-- Helper: every character emitted by `escChar` differs from the four
markup-introducing characters. -/
theorem escChar_safe (c0 c : Char) (hc : c ∈ escChar c0) :
    c ≠ '<' ∧ c ≠ '>' ∧ c ≠ '"' ∧ c ≠ '\'' := by
  unfold escChar at hc
  split_ifs at hc with h1 h2 h3 h4 h5
  · exact (by decide : ∀ x ∈ "&amp;".toList, x ≠ '<' ∧ x ≠ '>' ∧ x ≠ '"' ∧ x ≠ '\'') c hc
  · exact (by decide : ∀ x ∈ "&lt;".toList, x ≠ '<' ∧ x ≠ '>' ∧ x ≠ '"' ∧ x ≠ '\'') c hc
  · exact (by decide : ∀ x ∈ "&gt;".toList, x ≠ '<' ∧ x ≠ '>' ∧ x ≠ '"' ∧ x ≠ '\'') c hc
  · exact (by decide : ∀ x ∈ "&quot;".toList, x ≠ '<' ∧ x ≠ '>' ∧ x ≠ '"' ∧ x ≠ '\'') c hc
  · exact (by decide : ∀ x ∈ "&#039;".toList, x ≠ '<' ∧ x ≠ '>' ∧ x ≠ '"' ∧ x ≠ '\'') c hc
  · have hcc : c = c0 := by simpa using hc
    subst hcc
    simp only [beq_iff_eq] at h2 h3 h4 h5
    exact ⟨h2, h3, h4, h5⟩

/-- C10: `renderApiDoc` embeds each node's signature and each example
percent-escaped through `escapeHtml` — whose output never contains a raw
angle bracket or quote, so signature and example text cannot introduce HTML
markup — while the node's name and description are embedded verbatim,
unescaped. -/
theorem C10_api_escaping :
    (∀ (s : String), ∀ c ∈ (escapeHtml s).data,
        c ≠ '<' ∧ c ≠ '>' ∧ c ≠ '"' ∧ c ≠ '\'') ∧
    (∀ (n : ApiDocNodeM) (sig : String), n.signature = some sig → sig ≠ "" →
        containsSeg (renderApiDoc [n])
          ("<pre><code>" ++ escapeHtml sig ++ "</code></pre>")) ∧
    (∀ (n : ApiDocNodeM) (exs : List String) (e : String),
        n.examples = some exs → e ∈ exs →
        containsSeg (renderApiDoc [n])
          ("<pre><code>" ++ escapeHtml e ++ "</code></pre>")) ∧
    (∀ (n : ApiDocNodeM),
        containsSeg (renderApiDoc [n])
          ("<h3 id=\"" ++ n.name ++ "\">" ++ n.name ++ "</h3>")) ∧
    (∀ (n : ApiDocNodeM) (d : String), n.description = some d → d ≠ "" →
        containsSeg (renderApiDoc [n])
          ("<p class=\"description\">" ++ d ++ "</p>")) := by
  refine ⟨?_, ?_, ?_, ?_, ?_⟩
  · intro s c hc
    unfold escapeHtml at hc
    obtain ⟨l, hl, hcl⟩ := List.mem_flatten.mp hc
    obtain ⟨c0, _, rfl⟩ := List.mem_map.mp hl
    exact escChar_safe c0 c hcl
  · intro n sig h1 h2
    have hb : (sig != "") = true := by simpa using h2
    show containsSeg (("<div class=\"api-doc\">" ++ apiItemHtml n) ++ "</div>") _
    apply containsSeg_appendR
    apply containsSeg_appendL
    simp only [apiItemHtml, h1, optStrTruthy, hb, eq_self_iff_true, if_true,
      Option.getD_some]
    apply containsSeg_appendR
    apply containsSeg_appendR
    apply containsSeg_appendR
    apply containsSeg_appendR
    exact containsSeg_appendL _ (containsSeg_self _)
  · intro n exs e h1 he
    have hlen : exs.length > 0 := List.length_pos_of_mem he
    show containsSeg (("<div class=\"api-doc\">" ++ apiItemHtml n) ++ "</div>") _
    apply containsSeg_appendR
    apply containsSeg_appendL
    simp only [apiItemHtml, h1]
    apply containsSeg_appendR
    apply containsSeg_appendL
    rw [if_pos hlen]
    exact containsSeg_appendL _ (foldl_concat_mem _ he)
  · intro n
    show containsSeg (("<div class=\"api-doc\">" ++ apiItemHtml n) ++ "</div>") _
    apply containsSeg_appendR
    apply containsSeg_appendL
    unfold apiItemHtml
    apply containsSeg_appendR
    apply containsSeg_appendR
    apply containsSeg_appendR
    apply containsSeg_appendR
    apply containsSeg_appendR
    apply containsSeg_appendR
    exact containsSeg_appendL _ (containsSeg_self _)
  · intro n d h1 h2
    have hb : (d != "") = true := by simpa using h2
    show containsSeg (("<div class=\"api-doc\">" ++ apiItemHtml n) ++ "</div>") _
    apply containsSeg_appendR
    apply containsSeg_appendL
    simp only [apiItemHtml, h1, optStrTruthy, hb, eq_self_iff_true, if_true,
      Option.getD_some]
    apply containsSeg_appendR
    apply containsSeg_appendR
    apply containsSeg_appendR
    apply containsSeg_appendR
    apply containsSeg_appendR
    exact containsSeg_appendL _ (containsSeg_self _)

/-- Helper: the seen-set loop of `deduplicateProps` computes the
first-occurrence-wins deduplication relative to its seen set. -/
theorem dedupGo_eq_firstWins (ps : List PropDocM) :
    ∀ seen, dedupGo seen ps =
      firstWinsDedup (ps.filter (fun q => !(seen.contains q.name))) := by
  induction ps with
  | nil => intro seen; simp [dedupGo, firstWinsDedup]
  | cons p ps ih =>
    intro seen
    rw [List.filter_cons]
    by_cases hp : seen.contains p.name = true
    · rw [if_neg (by simpa using hp)]
      simp only [dedupGo, if_pos hp]
      exact ih seen
    · rw [if_pos (by simpa using hp)]
      simp only [dedupGo, if_neg hp]
      rw [firstWinsDedup, ih (p.name :: seen), List.filter_filter]
      apply congrArg (fun l => p :: firstWinsDedup l)
      apply List.filter_congr
      intro q _
      by_cases hq : q.name = p.name <;> simp [List.contains_cons, Bool.not_or, hq]

/-- Helper: names produced by the seen-set loop are pairwise distinct and
disjoint from the seen set. -/
theorem dedupGo_nodup (ps : List PropDocM) :
    ∀ seen, ((dedupGo seen ps).map (fun p => p.name)).Nodup ∧
      ∀ x ∈ (dedupGo seen ps).map (fun p => p.name), ¬ (x ∈ seen) := by
  induction ps with
  | nil => intro seen; exact ⟨by simp [dedupGo], by simp [dedupGo]⟩
  | cons p ps ih =>
    intro seen
    by_cases hp : seen.contains p.name = true
    · simpa only [dedupGo, if_pos hp] using ih seen
    · simp only [dedupGo, if_neg hp, List.map_cons, List.nodup_cons]
      obtain ⟨hnd, hout⟩ := ih (p.name :: seen)
      have hpmem : p.name ∉ seen := fun hm => hp (List.elem_iff.mpr hm)
      refine ⟨⟨fun hmem => ?_, hnd⟩, fun x hx => ?_⟩
      · exact hout p.name hmem (List.mem_cons_self _ _)
      · rcases List.mem_cons.mp hx with rfl | hx2
        · exact hpmem
        · exact fun hxs => hout x hx2 (List.mem_cons_of_mem _ hxs)

/-- Helper: the slot loop preserves distinctness of slot names. -/
theorem slotFold_nodup (ms : List (Option (List Char) × List Char)) :
    ∀ slots : List SlotDocM, ((slots.map (fun s => s.name)).Nodup) →
      ((slotFold ms slots).map (fun s => s.name)).Nodup := by
  induction ms with
  | nil => intro slots h; exact h
  | cons m ms ih =>
    intro slots h
    obtain ⟨nm, attrs⟩ := m
    simp only [slotFold]
    split
    · exact ih slots h
    · next hany =>
      apply ih
      rw [List.map_append, List.map_singleton]
      refine List.Nodup.append h (List.nodup_singleton _) ?_
      intro a ha hb
      have hb' := List.mem_singleton.mp hb
      obtain ⟨s, hs, hsname⟩ := List.mem_map.mp ha
      apply hany
      refine List.any_eq_true.mpr ⟨s, hs, ?_⟩
      rw [hsname, hb']
      exact beq_self_eq_true _

/-- A composition-style script whose typed `defineProps` block names `text`
twice and whose typed `defineEmits` block names `click` twice. -/
def dupScript : String :=
  "defineProps<\x7b text: string; text?: number \x7d>()\nconst emit = defineEmits<\x7b click: [x: number]; click: [] \x7d>()"

/-- The parsed descriptor of `dupScript`. -/
def dupDescriptor : SfcDescriptor :=
  { scriptSetup := some dupScript }

/-- C5 counterexample: on `dupDescriptor` the extractor emits a props list
and an events list with repeated names — neither is deduplicated. -/
theorem C5_counterexample :
    (extractProps dupDescriptor).map (fun p => p.name) = ["text", "text"] ∧
      (extractEvents dupDescriptor).map (fun e => e.name) = ["click", "click"] ∧
      ¬ ((extractProps dupDescriptor).map (fun p => p.name)).Nodup := by
  refine ⟨by decide, by decide, by decide⟩

/-- C5 (amended): the React extractor's `deduplicateProps` is exactly
first-occurrence-wins deduplication and its output names are pairwise
distinct, and the Vue slot extractor's output names are pairwise distinct;
Vue props and typed `defineEmits` events, in contrast, are appended without
deduplication (see the counterexample). -/
theorem C5_dedup :
    (∀ props : List PropDocM, deduplicateProps props = firstWinsDedup props) ∧
    (∀ props : List PropDocM,
        ((deduplicateProps props).map (fun p => p.name)).Nodup) ∧
    (∀ d : SfcDescriptor, ((extractSlots d).map (fun s => s.name)).Nodup) := by
  refine ⟨?_, ?_, ?_⟩
  · intro props
    rw [deduplicateProps, dedupGo_eq_firstWins]
    congr 1
    apply List.filter_eq_self.mpr
    intro q _
    simp
  · intro props
    exact (dedupGo_nodup props []).1
  · intro d
    unfold extractSlots
    cases d.template with
    | none => exact List.nodup_nil
    | some tmpl => exact slotFold_nodup _ [] List.nodup_nil

/-- C9: whenever the typed `defineProps` block of a composition-style script
captures exactly one required prop `text: string` and one optional prop
`disabled?: boolean` (and no options-style props object matches), the
extracted props list is `text : string` required and `disabled : boolean`
not required, in that order. -/
theorem C9_required_flags (d : SfcDescriptor) (script : String)
    (hs : d.script = some script) (hne : script ≠ "")
    (h1 : captureAngleBlock "defineProps<\x7b".toList script.toList =
      some "\n  text: string\n  disabled?: boolean\n".toList)
    (h2 : capturePropsObject script.toList = none) :
    extractProps d =
      [{ name := "text", type := .str "string", required := true },
        { name := "disabled", type := .str "boolean", required := false }] := by
  have hsc : sfcScriptContent d = script := by
    rw [sfcScriptContent, hs]
    simp [hne]
  simp only [extractProps, hs, Option.isNone_some, Bool.false_and, Bool.false_eq_true,
    if_false, hsc, h1, h2]
  decide

/-- A concrete composition-style script declaring the two props of the
end-to-end scenario. -/
def c9Script : String :=
  "defineProps<\x7b\n  text: string\n  disabled?: boolean\n\x7d>()"

/-- The parsed descriptor of `c9Script`. -/
def c9Descriptor : SfcDescriptor :=
  { script := some c9Script }

/-- Witness for `C9_required_flags` at `c9Descriptor`. -/
theorem C9_required_flags_witness :
    c9Descriptor.script = some c9Script ∧
      extractProps c9Descriptor =
        [{ name := "text", type := .str "string", required := true },
          { name := "disabled", type := .str "boolean", required := false }] :=
  ⟨rfl,
    C9_required_flags c9Descriptor c9Script rfl (by decide) (by decide) (by decide)⟩

/-- Helper: a forest without recognized declaration kinds contributes no
nodes. -/
theorem visitList_nil_of_noRecognized (fname : String) (l : List TsNode)
    (h : noRecognizedIn l = true) : visitList fname l = [] := by
  induction l using visitList.induct fname with
  | case1 => simp [visitList]
  | case2 n rest ih1 ih2 =>
    simp only [noRecognizedIn, Bool.and_eq_true] at h
    obtain ⟨⟨hk, hc⟩, hr⟩ := h
    have hm : visitMatched fname n = [] := by
      cases hkind : n.kind <;>
        first
        | (simp only [visitMatched, hkind]; done)
        | (exfalso; rw [hkind] at hk; simp [recognizedKind] at hk)
    simp only [visitList]
    rw [hm, ih1 hc, ih2 hr]
    rfl

/-- Helper: on a file whose recognized declarations are all top-level, the
walk is exactly the concatenation of the per-declaration matches. -/
theorem visitList_flat (fname : String) (decls : List TsNode)
    (h : ∀ d ∈ decls, noRecognizedIn d.children = true) :
    visitList fname decls = decls.flatMap (visitMatched fname) := by
  induction decls with
  | nil => simp [visitList]
  | cons d rest ih =>
    simp only [visitList]
    rw [visitList_nil_of_noRecognized fname _ (h d (List.mem_cons_self _ _)),
      ih (fun x hx => h x (List.mem_cons_of_mem _ hx))]
    simp [List.flatMap_cons]

/-- Helper: the identifier-filtered variable loop emits one line per
identifier declaration. -/
theorem varDecl_lines_map (g : TsVarDecl → ApiDocNodeM)
    (hg : ∀ v, ((g v).source.map (fun s => s.line)).getD 0 = v.line) :
    ∀ vs : List TsVarDecl,
      ((vs.filterMap (fun v => if v.isIdent then some (g v) else none)).map
          (fun a => (a.source.map (fun s => s.line)).getD 0)) =
        (vs.filter (fun v => v.isIdent)).map (fun v => v.line) := by
  intro vs
  induction vs with
  | nil => rfl
  | cons v vs ih =>
    by_cases hv : v.isIdent = true <;>
      simp [List.filterMap_cons, List.filter_cons, hv, ih, hg v]

/-- Helper: the lines of the nodes one declaration contributes. -/
theorem visitMatched_lines (fname : String) (d : TsNode) :
    ((visitMatched fname d).map (fun a => (a.source.map (fun s => s.line)).getD 0)) =
      declLines d := by
  cases hk : d.kind with
  | functionDecl =>
    cases hn : d.name <;>
      simp [visitMatched, declLines, hk, hn, parseFunctionDeclaration, tsSourceLocation]
  | classDecl =>
    cases hn : d.name <;>
      simp [visitMatched, declLines, hk, hn, parseClassDeclaration, tsSourceLocation]
  | interfaceDecl =>
    simp [visitMatched, declLines, hk, parseInterfaceDeclaration, tsSourceLocation]
  | typeAliasDecl =>
    simp [visitMatched, declLines, hk, parseTypeAliasDeclaration, tsSourceLocation]
  | variableStatement =>
    simp only [visitMatched, hk, declLines, parseVariableStatement]
    apply varDecl_lines_map
    intro v
    rfl
  | enumDecl =>
    simp [visitMatched, declLines, hk, parseEnumDeclaration, tsSourceLocation]
  | methodDecl => simp [visitMatched, declLines, hk]
  | propertyDecl => simp [visitMatched, declLines, hk]
  | propertySignature => simp [visitMatched, declLines, hk]
  | otherNode => simp [visitMatched, declLines, hk]
  | sourceFile => simp [visitMatched, declLines, hk]

/-- C8 (amended): `parseTypeScriptFile` emits one Annotation Node per
*recognized declaration at any nesting depth* in pre-order; restricted to
files whose recognized declarations are all top-level — the claim's case —
it emits exactly one node (or, for a variable statement, one per identifier
declaration) per top-level declaration in source order, and every node's
`source.line` is the 1-based line of the first non-trivia token of its
declaration.  Nested declarations are *not* excluded in general (see the
counterexample). -/
theorem C8_extraction (fname : String) (decls : List TsNode)
    (h : ∀ d ∈ decls, noRecognizedIn d.children = true) :
    parseTypeScriptFile fname (mkSourceFile decls) =
        decls.flatMap (visitMatched fname) ∧
      (parseTypeScriptFile fname (mkSourceFile decls)).map
          (fun a => (a.source.map (fun s => s.line)).getD 0) =
        decls.flatMap declLines := by
  have hlines : ∀ ds : List TsNode,
      ((ds.flatMap (visitMatched fname)).map
        (fun a => (a.source.map (fun s => s.line)).getD 0)) = ds.flatMap declLines := by
    intro ds
    induction ds with
    | nil => rfl
    | cons d rest ih =>
      simp only [List.flatMap_cons, List.map_append]
      rw [visitMatched_lines fname d, ih]
  have hmain : parseTypeScriptFile fname (mkSourceFile decls) =
      decls.flatMap (visitMatched fname) := by
    unfold parseTypeScriptFile
    have hfil : (visitList fname [mkSourceFile decls]).filter isExportedNode =
        visitList fname [mkSourceFile decls] :=
      List.filter_eq_self.mpr (fun a _ => rfl)
    rw [hfil]
    simp only [visitList, mkSourceFile, TsNode.children, TsNode.kind]
    rw [show visitMatched fname (TsNode.mk .sourceFile none "" 1 1 none [] [] false
      none [] decls) = [] from rfl]
    rw [visitList_flat fname decls h]
    simp [visitList]
  exact ⟨hmain, by rw [hmain]; exact hlines decls⟩

/-- Two flat top-level declarations: a documented function on line 3 and an
enum on line 9. -/
def flatDecls : List TsNode :=
  [TsNode.mk .functionDecl (some "add") "function add(a: number, b: number): number"
      3 1 (some "number")
      [{ name := "a", typeText := some "number" }, { name := "b", typeText := some "number" }]
      [] true (some "Adds two numbers") [] [],
    TsNode.mk .enumDecl (some "Color") "enum Color" 9 1 none [] [] false none [] []]

/-- Witness for `C8_extraction` at `flatDecls`. -/
theorem C8_extraction_witness :
    (∀ d ∈ flatDecls, noRecognizedIn d.children = true) ∧
      (parseTypeScriptFile "math.ts" (mkSourceFile flatDecls) =
          flatDecls.flatMap (visitMatched "math.ts") ∧
        (parseTypeScriptFile "math.ts" (mkSourceFile flatDecls)).map
            (fun a => (a.source.map (fun s => s.line)).getD 0) =
          flatDecls.flatMap declLines) ∧
      flatDecls.flatMap declLines = [3, 9] := by
  have hflat : ∀ d ∈ flatDecls, noRecognizedIn d.children = true := by
    intro d hd
    simp only [flatDecls, List.mem_cons, List.not_mem_nil, or_false] at hd
    rcases hd with rfl | rfl <;> simp [TsNode.children, noRecognizedIn]
  exact ⟨hflat, C8_extraction "math.ts" flatDecls hflat, by decide⟩

/-- A source file whose only top-level declaration is `outer`, whose body
block contains a nested declaration `inner`. -/
def nestedProgram : TsNode :=
  mkSourceFile
    [TsNode.mk .functionDecl (some "outer") "function outer() \x7b function inner() \x7b\x7d \x7d"
      1 1 none [] [] false none []
      [TsNode.mk .otherNode none "\x7b function inner() \x7b\x7d \x7d" 1 18 none [] []
        false none []
        [TsNode.mk .functionDecl (some "inner") "function inner() \x7b\x7d" 1 20 none []
          [] false none [] []]]]

/-- C8 counterexample: the visitor recurses through `forEachChild` into
function bodies, so the nested declaration `inner` — a child, not a
top-level declaration — appears in the returned top-level node list: one
top-level declaration yields two nodes. -/
theorem C8_counterexample :
    (parseTypeScriptFile "nested.ts" nestedProgram).map (fun a => a.name) =
        ["outer", "inner"] ∧
      (TsNode.children nestedProgram).length = 1 := by
  constructor
  · simp [parseTypeScriptFile, nestedProgram, mkSourceFile, visitList, visitMatched,
      TsNode.children, TsNode.kind, TsNode.name, isExportedNode,
      parseFunctionDeclaration, Option.getD]
  · rfl

/-- A node whose name carries markup and whose signature and example carry
HTML-special characters. -/
def apiNodeSample : ApiDocNodeM :=
  { name := "<b>add</b>"
    kind := .kFunction
    description := some "Adds two numbers"
    signature := some "function add(a: number, b: number): number"
    examples := some ["add(1, 2) < 4 && \"ok\""] }

/-- Witness for `C10_api_escaping` at `apiNodeSample`: the hypotheses hold
and the escaped signature and example, the raw name heading, and the raw
description all occur in the rendered page. -/
theorem C10_api_escaping_witness :
    apiNodeSample.signature = some "function add(a: number, b: number): number" ∧
      apiNodeSample.examples = some ["add(1, 2) < 4 && \"ok\""] ∧
      apiNodeSample.description = some "Adds two numbers" ∧
      ('f' ∈ (escapeHtml "a<b").data →
          'f' ≠ '<' ∧ 'f' ≠ '>' ∧ 'f' ≠ '"' ∧ 'f' ≠ '\'') ∧
      containsSeg (renderApiDoc [apiNodeSample])
        ("<pre><code>" ++ escapeHtml "function add(a: number, b: number): number" ++
          "</code></pre>") ∧
      containsSeg (renderApiDoc [apiNodeSample])
        ("<pre><code>" ++ escapeHtml "add(1, 2) < 4 && \"ok\"" ++ "</code></pre>") ∧
      containsSeg (renderApiDoc [apiNodeSample])
        ("<h3 id=\"" ++ apiNodeSample.name ++ "\">" ++ apiNodeSample.name ++ "</h3>") ∧
      containsSeg (renderApiDoc [apiNodeSample])
        ("<p class=\"description\">" ++ "Adds two numbers" ++ "</p>") :=
  ⟨rfl, rfl, rfl,
    C10_api_escaping.1 "a<b" 'f',
    C10_api_escaping.2.1 apiNodeSample _ rfl (by decide),
    C10_api_escaping.2.2.1 apiNodeSample _ _ rfl (by decide),
    C10_api_escaping.2.2.2.1 apiNodeSample,
    C10_api_escaping.2.2.2.2 apiNodeSample "Adds two numbers" rfl (by decide)⟩

/-- Witness for `C4_title_priority`: a quoted title value, a front-matter
block without a `title` key over a body with a heading, and a file with no
front matter at all, each exercised concretely. -/
theorem C4_title_priority_witness :
    (∀ c ∈ "'Home'".toList, c ≠ '\n') ∧
      (mdDocTitle ("---\ntitle: " ++ "'Home'" ++ "\n---" ++ "\n# Other heading") "index.md" =
          if stripQuoteEnds (jsTrim "'Home'") = "" then getTitleFromPath "index.md"
          else stripQuoteEnds (jsTrim "'Home'")) ∧
      stripQuoteEnds (jsTrim "'Home'") = "Home" ∧
      (frontmatterCapture "---\nauthor: me\n---\n# Welcome" = some "author: me" ∧
        ((splitOnChar '\n' "author: me").foldl fmLineStep ("", [])).1 = "" ∧
        mdDocTitle "---\nauthor: me\n---\n# Welcome" "getting-started.md" =
          getTitleFromPath "getting-started.md") ∧
      (frontmatterCapture "# Welcome" = none ∧
        mdDocTitle "# Welcome" "getting-started.md" = getTitleFromPath "getting-started.md") :=
  ⟨by decide,
    C4_title_priority.1 "'Home'" "\n# Other heading" "index.md" (by decide),
    by decide,
    ⟨by decide, by decide,
      C4_title_priority.2.1 "---\nauthor: me\n---\n# Welcome" "author: me"
        "getting-started.md" (by decide) (by decide)⟩,
    ⟨by decide,
      C4_title_priority.2.2 "# Welcome" "getting-started.md" (by decide)⟩⟩

end LDocs
